import Mathlib

/-!
Shallow embedding of the XTulator286 CPU core (cpu.c, fpu.c) in Lean 4.

Machine integers are modelled as `Nat` with explicit truncation (`% 2^w`,
`&&& mask`) at the points where the C code performs a narrowing conversion
or relies on fixed-width wrap-around.  The physical memory bus is a byte
function `Nat → Nat`; word accesses synthesize two byte accesses
little-endian, following the bus contract of the specification (cpu.h and
memory.c are not part of the published sources, so the few helper macros
they provide are modelled from the specification and marked as such).

Host interrupt callbacks are modelled as a presence table inside the CPU
state (`int_callback`) together with an external behaviour parameter
`cb : Nat → CPU → CPU` standing for the host-supplied handler bodies.
-/

namespace XT

/-- Modelled from the spec: the physical memory bus `read_byte(addr24) → u8`
(memory.c is not under the published sources).  Reads return a byte. -/
def bus_read (m : Nat → Nat) (addr : Nat) : Nat := m addr % 256

/-- Modelled from the spec: the physical memory bus `write_byte(addr24, u8)`
(memory.c is not under the published sources). -/
def bus_write (m : Nat → Nat) (addr v : Nat) : Nat → Nat :=
  Function.update m addr (v % 256)

/-- Little-endian 16-bit read on the raw bus (two byte accesses). -/
def bus_read16 (m : Nat → Nat) (addr : Nat) : Nat :=
  bus_read m addr ||| (bus_read m (addr + 1) <<< 8)

/-- Per-segment descriptor cache record `{base, limit, access, valid}`. -/
structure DescCache where
  base : Nat
  limit : Nat
  access : Nat
  valid : Nat
  deriving DecidableEq

/-- Task-register cache: like `DescCache` plus the ring-0 stack snapshot. -/
structure TrCache where
  base : Nat
  limit : Nat
  access : Nat
  valid : Nat
  sp0 : Nat
  ss0 : Nat
  deriving DecidableEq

/-- A descriptor-table register (GDTR/IDTR): base and limit. -/
structure DTR where
  base : Nat
  limit : Nat
  deriving DecidableEq

/-- The FPU substate of `CPU_t` (`FPU_t` in fpu.h).  Stack slots hold the
64-bit patterns of the C doubles. -/
structure FPUState where
  st : Fin 8 → Nat
  cw : Nat
  sw : Nat
  tw : Nat
  fip : Nat
  fcs : Nat
  fdp : Nat
  fds : Nat
  fop : Nat

/-- The CPU state (`CPU_t`).  `regs` are the eight 16-bit word registers
(byte views are defined below); `segregs` are ES, CS, SS, DS; flag fields
are 0/1 `Nat`s; `ofl` is the source's `of` flag (a Lean keyword); `a20`
models the global `a20_enabled` byte; `mem` is the physical memory bus;
`int_callback` records which interrupt vectors have a host callback
registered. -/
structure CPU where
  regs : Fin 8 → Nat
  segregs : Fin 4 → Nat
  ip : Nat
  saveip : Nat
  savecs : Nat
  cf : Nat
  pf : Nat
  af : Nat
  zf : Nat
  sf : Nat
  ofl : Nat
  df : Nat
  ifl : Nat
  tf : Nat
  msw : Nat
  protected_mode : Nat
  handling_fault : Nat
  gdtr : DTR
  idtr : DTR
  ldtr : Nat
  tr : Nat
  ldtr_cache : DescCache
  tr_cache : TrCache
  segcache : Fin 4 → DescCache
  hltstate : Nat
  trap_toggle : Nat
  reptype : Nat
  segoverride : Nat
  useseg : Nat
  opcode : Nat
  mode : Nat
  reg : Nat
  rm : Nat
  disp16 : Nat
  ea : Nat
  oper1 : Nat
  oper2 : Nat
  res16 : Nat
  oper1b : Nat
  oper2b : Nat
  res8 : Nat
  int_callback : Nat → Bool
  a20 : Bool
  mem : Nat → Nat
  fpu : FPUState

/-- Word-register index `regax`. -/
def regax : Fin 8 := 0
/-- Word-register index `regcx`. -/
def regcx : Fin 8 := 1
/-- Word-register index `regdx`. -/
def regdx : Fin 8 := 2
/-- Word-register index `regbx`. -/
def regbx : Fin 8 := 3
/-- Word-register index `regsp`. -/
def regsp : Fin 8 := 4
/-- Word-register index `regbp`. -/
def regbp : Fin 8 := 5
/-- Word-register index `regsi`. -/
def regsi : Fin 8 := 6
/-- Word-register index `regdi`. -/
def regdi : Fin 8 := 7

/-- Segment-register index `reges`. -/
def reges : Fin 4 := 0
/-- Segment-register index `regcs`. -/
def regcs : Fin 4 := 1
/-- Segment-register index `regss`. -/
def regss : Fin 4 := 2
/-- Segment-register index `regds`. -/
def regds : Fin 4 := 3

/-- Byte-register index `regal` in the byte-aliased view. -/
def regal : Nat := 0
/-- Byte-register index `regah`. -/
def regah : Nat := 1
/-- Byte-register index `regcl`. -/
def regcl : Nat := 2
/-- Byte-register index `regch`. -/
def regch : Nat := 3
/-- Byte-register index `regdl`. -/
def regdl : Nat := 4
/-- Byte-register index `regdh`. -/
def regdh : Nat := 5
/-- Byte-register index `regbl`. -/
def regbl : Nat := 6
/-- Byte-register index `regbh`. -/
def regbh : Nat := 7

/-- The byte-aliased read view over the first four word registers
(`cpu->regs.byteregs[i]`): even indices are low halves, odd indices high
halves, little-endian, exactly as the C union lays them out. -/
def byteregGet (c : CPU) (i : Nat) : Nat :=
  let w := c.regs ⟨i / 2 % 8, Nat.mod_lt _ (by omega)⟩
  if i % 2 = 0 then w % 256 else w / 256 % 256

/-- The byte-aliased write view (`cpu->regs.byteregs[i] = v`): replaces one
half of the backing 16-bit word. -/
def byteregSet (c : CPU) (i v : Nat) : CPU :=
  let j : Fin 8 := ⟨i / 2 % 8, Nat.mod_lt _ (by omega)⟩
  let w := c.regs j
  let w' := if i % 2 = 0 then w / 256 % 256 * 256 + v % 256
            else v % 256 * 256 + w % 256
  { c with regs := Function.update c.regs j w' }

/-- Modelled from the spec: cpu.h's `getreg16` accessor macro (cpu.h is not
under the published sources): read a 16-bit word register. -/
def getreg16 (c : CPU) (r : Fin 8) : Nat := c.regs r

/-- Modelled from the spec: cpu.h's `putreg16` accessor macro (cpu.h is not
under the published sources): store into a 16-bit word register (uint16_t
store truncates). -/
def putreg16 (c : CPU) (r : Fin 8) (v : Nat) : CPU :=
  { c with regs := Function.update c.regs r (v % 65536) }

/-- The 256-entry even-parity lookup table `parity` from cpu.c. -/
def parityTab : List Nat :=
  [1, 0, 0, 1, 0, 1, 1, 0, 0, 1, 1, 0, 1, 0, 0, 1, 0, 1, 1, 0, 1, 0, 0, 1, 1, 0, 0, 1, 0, 1, 1, 0,
   0, 1, 1, 0, 1, 0, 0, 1, 1, 0, 0, 1, 0, 1, 1, 0, 1, 0, 0, 1, 0, 1, 1, 0, 0, 1, 1, 0, 1, 0, 0, 1,
   0, 1, 1, 0, 1, 0, 0, 1, 1, 0, 0, 1, 0, 1, 1, 0, 1, 0, 0, 1, 0, 1, 1, 0, 0, 1, 1, 0, 1, 0, 0, 1,
   1, 0, 0, 1, 0, 1, 1, 0, 0, 1, 1, 0, 1, 0, 0, 1, 0, 1, 1, 0, 1, 0, 0, 1, 1, 0, 0, 1, 0, 1, 1, 0,
   0, 1, 1, 0, 1, 0, 0, 1, 1, 0, 0, 1, 0, 1, 1, 0, 1, 0, 0, 1, 0, 1, 1, 0, 0, 1, 1, 0, 1, 0, 0, 1,
   1, 0, 0, 1, 0, 1, 1, 0, 0, 1, 1, 0, 1, 0, 0, 1, 0, 1, 1, 0, 1, 0, 0, 1, 1, 0, 0, 1, 0, 1, 1, 0,
   1, 0, 0, 1, 0, 1, 1, 0, 0, 1, 1, 0, 1, 0, 0, 1, 0, 1, 1, 0, 1, 0, 0, 1, 1, 0, 0, 1, 0, 1, 1, 0,
   0, 1, 1, 0, 1, 0, 0, 1, 1, 0, 0, 1, 0, 1, 1, 0, 1, 0, 0, 1, 0, 1, 1, 0, 0, 1, 1, 0, 1, 0, 0, 1]

/-- Table lookup `parity[v]` (callers index with a byte value). -/
def parityLook (v : Nat) : Nat := parityTab.getD v 0

/-- `flag_szp8`: zero, sign and parity flags from an 8-bit result. -/
def flag_szp8 (c : CPU) (value : Nat) : CPU :=
  { c with
    zf := if value = 0 then 1 else 0,
    sf := if value &&& 0x80 ≠ 0 then 1 else 0,
    pf := parityLook value }

/-- `flag_szp16`: zero, sign and parity flags from a 16-bit result. -/
def flag_szp16 (c : CPU) (value : Nat) : CPU :=
  { c with
    zf := if value = 0 then 1 else 0,
    sf := if value &&& 0x8000 ≠ 0 then 1 else 0,
    pf := parityLook (value &&& 255) }

/-- `flag_log8`: logical ops clear carry and overflow. -/
def flag_log8 (c : CPU) (value : Nat) : CPU :=
  { flag_szp8 c value with cf := 0, ofl := 0 }

/-- `flag_log16`: logical ops clear carry and overflow. -/
def flag_log16 (c : CPU) (value : Nat) : CPU :=
  { flag_szp16 c value with cf := 0, ofl := 0 }

/-- `flag_adc8` (v1 = destination, v2 = source, v3 = carry-in); the sum is
formed in 16 bits, `flag_szp8` sees the truncated byte. -/
def flag_adc8 (c : CPU) (v1 v2 v3 : Nat) : CPU :=
  let dst := v1 + v2 + v3
  { flag_szp8 c (dst % 256) with
    ofl := if (dst ^^^ v1) &&& (dst ^^^ v2) &&& 0x80 = 0x80 then 1 else 0,
    cf := if dst &&& 0xFF00 ≠ 0 then 1 else 0,
    af := if (v1 ^^^ v2 ^^^ dst) &&& 0x10 = 0x10 then 1 else 0 }

/-- `flag_adc16`: 16-bit add-with-carry flags, sum formed in 32 bits. -/
def flag_adc16 (c : CPU) (v1 v2 v3 : Nat) : CPU :=
  let dst := v1 + v2 + v3
  { flag_szp16 c (dst % 65536) with
    ofl := if (dst ^^^ v1) &&& (dst ^^^ v2) &&& 0x8000 = 0x8000 then 1 else 0,
    cf := if dst &&& 0xFFFF0000 ≠ 0 then 1 else 0,
    af := if (v1 ^^^ v2 ^^^ dst) &&& 0x10 = 0x10 then 1 else 0 }

/-- `flag_add8`: 8-bit add flags. -/
def flag_add8 (c : CPU) (v1 v2 : Nat) : CPU :=
  let dst := v1 + v2
  { flag_szp8 c (dst % 256) with
    cf := if dst &&& 0xFF00 ≠ 0 then 1 else 0,
    ofl := if (dst ^^^ v1) &&& (dst ^^^ v2) &&& 0x80 = 0x80 then 1 else 0,
    af := if (v1 ^^^ v2 ^^^ dst) &&& 0x10 = 0x10 then 1 else 0 }

/-- `flag_add16`: 16-bit add flags, sum formed in 32 bits. -/
def flag_add16 (c : CPU) (v1 v2 : Nat) : CPU :=
  let dst := v1 + v2
  { flag_szp16 c (dst % 65536) with
    cf := if dst &&& 0xFFFF0000 ≠ 0 then 1 else 0,
    ofl := if (dst ^^^ v1) &&& (dst ^^^ v2) &&& 0x8000 = 0x8000 then 1 else 0,
    af := if (v1 ^^^ v2 ^^^ dst) &&& 0x10 = 0x10 then 1 else 0 }

/-- `flag_sbb8`: the C source first folds the carry into the 8-bit source
operand (`v2 += v3` on a `uint8_t`, wrapping mod 256), then forms
`v1 - v2` as a `uint16_t` (two's-complement wrap mod 2^16). -/
def flag_sbb8 (c : CPU) (v1 v2 v3 : Nat) : CPU :=
  let v2w := (v2 + v3) % 256
  let dst := (v1 + 65536 - v2w) % 65536
  { flag_szp8 c (dst % 256) with
    cf := if dst &&& 0xFF00 ≠ 0 then 1 else 0,
    ofl := if (dst ^^^ v1) &&& (v1 ^^^ v2w) &&& 0x80 ≠ 0 then 1 else 0,
    af := if (v1 ^^^ v2w ^^^ dst) &&& 0x10 ≠ 0 then 1 else 0 }

/-- `flag_sbb16`: carry folded into the 16-bit source operand (`v2 += v3`
wrapping mod 2^16), difference formed as a `uint32_t`. -/
def flag_sbb16 (c : CPU) (v1 v2 v3 : Nat) : CPU :=
  let v2w := (v2 + v3) % 65536
  let dst := (v1 + 4294967296 - v2w) % 4294967296
  { flag_szp16 c (dst % 65536) with
    cf := if dst &&& 0xFFFF0000 ≠ 0 then 1 else 0,
    ofl := if (dst ^^^ v1) &&& (v1 ^^^ v2w) &&& 0x8000 ≠ 0 then 1 else 0,
    af := if (v1 ^^^ v2w ^^^ dst) &&& 0x10 ≠ 0 then 1 else 0 }

/-- `flag_sub8`: 8-bit subtract flags (difference as `uint16_t`). -/
def flag_sub8 (c : CPU) (v1 v2 : Nat) : CPU :=
  let dst := (v1 + 65536 - v2 % 65536) % 65536
  { flag_szp8 c (dst % 256) with
    cf := if dst &&& 0xFF00 ≠ 0 then 1 else 0,
    ofl := if (dst ^^^ v1) &&& (v1 ^^^ v2) &&& 0x80 ≠ 0 then 1 else 0,
    af := if (v1 ^^^ v2 ^^^ dst) &&& 0x10 ≠ 0 then 1 else 0 }

/-- `flag_sub16`: 16-bit subtract flags (difference as `uint32_t`). -/
def flag_sub16 (c : CPU) (v1 v2 : Nat) : CPU :=
  let dst := (v1 + 4294967296 - v2 % 4294967296) % 4294967296
  { flag_szp16 c (dst % 65536) with
    cf := if dst &&& 0xFFFF0000 ≠ 0 then 1 else 0,
    ofl := if (dst ^^^ v1) &&& (v1 ^^^ v2) &&& 0x8000 ≠ 0 then 1 else 0,
    af := if (v1 ^^^ v2 ^^^ dst) &&& 0x10 ≠ 0 then 1 else 0 }

/-- `op_add16`: forms `res16` and the flags from `oper1`, `oper2` (the
`uint16_t` store into `res16` truncates mod 2^16). -/
def op_add16 (c : CPU) : CPU :=
  let c' := { c with res16 := (c.oper1 + c.oper2) % 65536 }
  flag_add16 c' c.oper1 c.oper2

/-- `op_sbb8`: `res8 = oper1b - (oper2b + cf)` truncated to a byte; flags
via `flag_sbb8`. -/
def op_sbb8 (c : CPU) : CPU :=
  let c' := { c with res8 := (c.oper1b + 65536 - (c.oper2b + c.cf) % 65536) % 65536 % 256 }
  flag_sbb8 c' c.oper1b c.oper2b c.cf

/-- `op_sbb16`: `res16 = oper1 - (oper2 + cf)` truncated to 16 bits; flags
via `flag_sbb16`. -/
def op_sbb16 (c : CPU) : CPU :=
  let c' := { c with res16 := (c.oper1 + 4294967296 - (c.oper2 + c.cf) % 4294967296) % 4294967296 % 65536 }
  flag_sbb16 c' c.oper1 c.oper2 c.cf

/-- Raw bus byte read `cpu_read(cpu, addr32)` (the bus itself is modelled
from the spec, see `bus_read`). -/
def cpu_read (c : CPU) (addr : Nat) : Nat := bus_read c.mem addr

/-- Raw bus byte write `cpu_write(cpu, addr32, value)`. -/
def cpu_write (c : CPU) (addr v : Nat) : CPU :=
  { c with mem := bus_write c.mem addr v }

/-- `cpu_readw`: little-endian 16-bit read built from two byte reads. -/
def cpu_readw (c : CPU) (addr : Nat) : Nat :=
  cpu_read c addr ||| (cpu_read c (addr + 1) <<< 8)

/-- `cpu_writew`: little-endian 16-bit write built from two byte writes
(the `uint8_t` casts truncate). -/
def cpu_writew (c : CPU) (addr v : Nat) : CPU :=
  cpu_write (cpu_write c addr (v % 256)) (addr + 1) (v >>> 8 % 256)

/-- The ModR/M effective-address offset table of `getea` (the `tempea`
value before masking): mod 0 uses the classic 8086 base/index sums with
rm=6 as direct displacement; mod 1/2 add the displacement. -/
def getea_offset (c : CPU) (rmval : Nat) : Nat :=
  if c.mode = 0 then
    match rmval with
    | 0 => c.regs regbx + c.regs regsi
    | 1 => c.regs regbx + c.regs regdi
    | 2 => c.regs regbp + c.regs regsi
    | 3 => c.regs regbp + c.regs regdi
    | 4 => c.regs regsi
    | 5 => c.regs regdi
    | 6 => c.disp16
    | _ => c.regs regbx
  else if c.mode = 1 ∨ c.mode = 2 then
    match rmval with
    | 0 => c.regs regbx + c.regs regsi + c.disp16
    | 1 => c.regs regbx + c.regs regdi + c.disp16
    | 2 => c.regs regbp + c.regs regsi + c.disp16
    | 3 => c.regs regbp + c.regs regdi + c.disp16
    | 4 => c.regs regsi + c.disp16
    | 5 => c.regs regdi + c.disp16
    | 6 => c.regs regbp + c.disp16
    | _ => c.regs regbx + c.disp16
  else 0

/-- `getea`: computes the 24-bit physical effective address into `ea`.
In protected mode the current `useseg` selector is matched against the
segment registers (SS, DS, ES, CS, in that order) and the descriptor
cache base is added; with no valid match the address is 0.  In real mode
`(useseg << 4) + offset`, masked to 20 bits when A20 is disabled. -/
def getea (c : CPU) (rmval : Nat) : CPU :=
  let offset := getea_offset c rmval &&& 0xFFFF
  if c.protected_mode ≠ 0 then
    let idx : Option (Fin 4) :=
      if c.useseg = c.segregs regss then some regss
      else if c.useseg = c.segregs regds then some regds
      else if c.useseg = c.segregs reges then some reges
      else if c.useseg = c.segregs regcs then some regcs
      else none
    let ea :=
      match idx with
      | some i => if (c.segcache i).valid ≠ 0 then (c.segcache i).base + offset else 0
      | none => 0
    { c with ea := ea }
  else
    let addr := (c.useseg <<< 4) + offset
    { c with ea := if c.a20 then addr else addr &&& 0x000FFFFF }

/-- `translate_address_safe`: protected-mode translation that reports a
fault through its out-parameter instead of raising; `none` models the
`*fault = 1` / `0xFFFFFFFF` outcome.  The real-mode branch applies no A20
masking (faithful to the source). -/
def translate_address_safe (c : CPU) (seg off : Nat) : Option Nat :=
  if c.protected_mode = 0 then some ((seg <<< 4) + off)
  else
    let cache : Option DescCache :=
      if seg = c.segregs regcs then some (c.segcache regcs)
      else if seg = c.segregs regds then some (c.segcache regds)
      else if seg = c.segregs reges then some (c.segcache reges)
      else if seg = c.segregs regss then some (c.segcache regss)
      else none
    match cache with
    | none => none
    | some k =>
      if k.valid = 0 then none
      else if off > k.limit then none
      else some (k.base + off)

/-- `get_real_address`, parameterized by the fault-raiser `raise` (the
source calls `cpu_intcall(cpu, 13)` there); returns the possibly mutated
state together with the address (0 after a fault). -/
def get_real_address_core (raise : CPU → Nat → CPU) (c : CPU) (seg off : Nat) : CPU × Nat :=
  if c.protected_mode ≠ 0 then
    match translate_address_safe c seg off with
    | some a => (c, a)
    | none => (raise c 13, 0)
  else
    let addr := (seg <<< 4) + off
    (c, if c.a20 then addr else addr &&& 0x000FFFFF)

/-- Modelled from the spec: cpu.h's `getmem8` macro (cpu.h is not under the
published sources): byte read at the real address of seg:off. -/
def getmem8_core (raise : CPU → Nat → CPU) (c : CPU) (seg off : Nat) : CPU × Nat :=
  let p := get_real_address_core raise c seg off
  (p.1, cpu_read p.1 p.2)

/-- Modelled from the spec: cpu.h's `putmem8` macro: byte write at the real
address of seg:off. -/
def putmem8_core (raise : CPU → Nat → CPU) (c : CPU) (seg off v : Nat) : CPU :=
  let p := get_real_address_core raise c seg off
  cpu_write p.1 p.2 v

/-- Modelled from the spec: cpu.h's `getmem16` macro: little-endian word
read at the real address of seg:off. -/
def getmem16_core (raise : CPU → Nat → CPU) (c : CPU) (seg off : Nat) : CPU × Nat :=
  let p := get_real_address_core raise c seg off
  (p.1, cpu_readw p.1 p.2)

/-- Modelled from the spec: cpu.h's `putmem16` macro: little-endian word
write at the real address of seg:off. -/
def putmem16_core (raise : CPU → Nat → CPU) (c : CPU) (seg off v : Nat) : CPU :=
  let p := get_real_address_core raise c seg off
  cpu_writew p.1 p.2 v

/-- `push`: decrement SP by 2 (uint16 wrap) and store the word at SS:SP. -/
def push_core (raise : CPU → Nat → CPU) (c : CPU) (v : Nat) : CPU :=
  let c1 := { c with regs := Function.update c.regs regsp ((c.regs regsp + 65534) % 65536) }
  putmem16_core raise c1 (c1.segregs regss) (c1.regs regsp) v

/-- Modelled from the spec: cpu.h's `makeflagsword` (cpu.h is not under the
published sources): packs the flag bits into the 8086 FLAGS layout
(CF bit 0, bit 1 always set, PF bit 2, AF bit 4, ZF bit 6, SF bit 7,
TF bit 8, IF bit 9, DF bit 10, OF bit 11). -/
def makeflagsword (c : CPU) : Nat :=
  2 ||| c.cf ||| (c.pf <<< 2) ||| (c.af <<< 4) ||| (c.zf <<< 6) ||| (c.sf <<< 7) |||
    (c.tf <<< 8) ||| (c.ifl <<< 9) ||| (c.df <<< 10) ||| (c.ofl <<< 11)

/-- `get_descriptor_info`: walk the GDT/LDT for a selector and return
(base, limit, access); `none` models the `return 0` failure paths (null
selector, invalid LDTR, table-limit overflow). -/
def get_descriptor_info (c : CPU) (selector : Nat) : Option (Nat × Nat × Nat) :=
  if selector &&& 0xFFFC = 0 then none
  else
    let tbl : Option (Nat × Nat) :=
      if selector &&& 0x0004 ≠ 0 then
        if c.ldtr_cache.valid = 0 then none
        else some (c.ldtr_cache.base, c.ldtr_cache.limit)
      else some (c.gdtr.base, c.gdtr.limit)
    match tbl with
    | none => none
    | some (table_base, table_limit) =>
      let index := selector >>> 3
      if index * 8 + 7 > table_limit then none
      else
        let addr := table_base + index * 8
        some (cpu_read c (addr + 2) ||| (cpu_read c (addr + 3) <<< 8) ||| (cpu_read c (addr + 4) <<< 16),
              cpu_readw c addr,
              cpu_read c (addr + 5))

/-- `OpFinit` (fpu.c): control word 0x037F, status 0, tag word 0xFFFF. -/
def OpFinit (f : FPUState) : FPUState :=
  { f with cw := 0x037F, sw := 0, tw := 0xFFFF }

/-- `cpu_reset`: clears the callback table, zeroes the general registers
and descriptor caches, sets MSW, GDTR/IDTR, CS:IP = F000:FFF0, leaves
protected mode, disables A20 and reinitializes the FPU.  (The data
segment registers and arithmetic flags are not touched, faithful to the
source.) -/
def cpu_reset (c : CPU) : CPU :=
  { c with
    int_callback := fun _ => false,
    regs := fun _ => 0,
    segcache := fun _ => ⟨0, 0, 0, 0⟩,
    ldtr_cache := ⟨0, 0, 0, 0⟩,
    tr_cache := ⟨0, 0, 0, 0, 0, 0⟩,
    msw := 0xFFF0,
    gdtr := ⟨0, 0xFFFF⟩,
    idtr := ⟨0, 0x03FF⟩,
    handling_fault := 0,
    ldtr := 0,
    tr := 0,
    protected_mode := 0,
    a20 := false,
    fpu := OpFinit c.fpu,
    segregs := Function.update c.segregs regcs 0xF000,
    ip := 0xFFF0,
    hltstate := 0,
    trap_toggle := 0 }

/-- `load_descriptor`, parameterized by the fault-raiser `raise` (the
source's nested `cpu_intcall` calls).  Loads a segment register through
the GDT/LDT with the 286 protection checks. -/
def load_descriptor_core (raise : CPU → Nat → CPU) (c : CPU) (seg_reg : Fin 4) (selector : Nat) : CPU :=
  let cpl := c.segregs regcs &&& 3
  if selector &&& 0xFFFC = 0 then
    if seg_reg = regss then raise c 13
    else
      { c with
        segcache := Function.update c.segcache seg_reg { c.segcache seg_reg with valid := 0 },
        segregs := Function.update c.segregs seg_reg selector }
  else
  if selector &&& 0x0004 ≠ 0 ∧ c.ldtr_cache.valid = 0 then raise c 13
  else
  let table_base := if selector &&& 0x0004 ≠ 0 then c.ldtr_cache.base else c.gdtr.base
  let table_limit := if selector &&& 0x0004 ≠ 0 then c.ldtr_cache.limit else c.gdtr.limit
  let index := selector >>> 3
  if index * 8 + 7 > table_limit then
    let c' := raise c 13
    { c' with segcache := Function.update c'.segcache seg_reg { c'.segcache seg_reg with valid := 0 } }
  else
  let addr := table_base + index * 8
  let access := cpu_read c (addr + 5)
  let limit := cpu_readw c addr
  let base := cpu_read c (addr + 2) ||| (cpu_read c (addr + 3) <<< 8) ||| (cpu_read c (addr + 4) <<< 16)
  let rpl := selector &&& 3
  let dpl := (access >>> 5) &&& 3
  if access &&& 0x80 = 0 then raise c 11
  else
  let ok : Bool :=
    if seg_reg = regss then
      let is_writable_data := access &&& 0x08 = 0 ∧ access &&& 0x02 ≠ 0
      decide (rpl = cpl ∧ dpl = cpl ∧ is_writable_data)
    else if seg_reg = regcs then
      decide (access &&& 0x08 ≠ 0 ∧ dpl ≤ cpl)
    else
      let is_data := access &&& 0x08 = 0
      let is_readable_code := access &&& 0x0A = 0x0A
      decide ((is_data ∨ is_readable_code) ∧ cpl ≤ dpl ∧ rpl ≤ dpl)
  if ¬ok then
    if seg_reg = regss then raise (push_core raise c selector) 13
    else raise c 13
  else
    { c with
      segcache := Function.update c.segcache seg_reg ⟨base, limit, access, 1⟩,
      segregs := Function.update c.segregs seg_reg selector }

/-- The byte-copy loop of the INT 15h AH=87h extended-memory move:
`for (i = 0; i < n; i++) cpu_write(dst+i, cpu_read(src+i))`. -/
def int15_block_move (c : CPU) (src dst : Nat) : Nat → CPU
  | 0 => c
  | n + 1 =>
    let c' := int15_block_move c src dst n
    cpu_write c' (dst + n) (cpu_read c' (src + n))

/-- One activation of `cpu_intcall`, the interrupt dispatcher, with every
nested dispatcher call (fault escalation and faults raised during
delivery) abstracted as `raise`; `cb` gives the behaviour of registered
host callbacks. -/
def intcallBody (cb : Nat → CPU → CPU) (raise : CPU → Nat → CPU) (c : CPU) (intnum : Nat) : CPU :=
    if c.handling_fault ≠ 0 then
      if intnum = 8 then cpu_reset c
      else raise c 8
    else
    let c := if intnum = 8 ∨ intnum = 10 ∨ intnum = 11 ∨ intnum = 12 ∨ intnum = 13 then
               { c with handling_fault := 1 } else c
    -- high-level BIOS intercept for INT 15h AH=88h/87h
    if intnum = 0x15 ∧ byteregGet c regah = 0x88 then
      { c with regs := Function.update c.regs regax 15360, cf := 0 }
    else if intnum = 0x15 ∧ byteregGet c regah = 0x87 then
      let count := c.regs regcx
      let num_bytes := count * 2
      let p := get_real_address_core raise c (c.segregs reges) (c.regs regsi)
      let c1 := p.1
      let table_addr := p.2
      let source_base := cpu_read c1 (table_addr + 10) ||| (cpu_read c1 (table_addr + 11) <<< 8) |||
                           (cpu_read c1 (table_addr + 12) <<< 16)
      let dest_base := cpu_read c1 (table_addr + 18) ||| (cpu_read c1 (table_addr + 19) <<< 8) |||
                         (cpu_read c1 (table_addr + 20) <<< 16)
      let c2 := int15_block_move c1 source_base dest_base num_bytes
      { byteregSet { c2 with cf := 0 } regah 0 with zf := 1 }
    else if c.int_callback intnum then
      { cb intnum c with handling_fault := 0 }
    else if c.protected_mode ≠ 0 then
      let gate_offset := intnum * 8
      if gate_offset + 7 > c.idtr.limit then raise c 8
      else
      let gate_addr := c.idtr.base + gate_offset
      let access := cpu_read c (gate_addr + 5)
      if access &&& 0x80 = 0 then raise c 11
      else
      let new_ip := cpu_readw c gate_addr
      let new_cs := cpu_readw c (gate_addr + 2)
      let gate_type := access &&& 0x1F
      match get_descriptor_info c new_cs with
      | none => raise c 13
      | some (_, _, target_desc_access) =>
        let target_dpl := (target_desc_access >>> 5) &&& 3
        let cpl := c.segregs regcs &&& 3
        let old_flags := makeflagsword c
        let old_cs := c.segregs regcs
        let old_ip := c.ip
        let afterPush : Option CPU :=
          if target_dpl < cpl then
            if c.tr_cache.valid = 0 then none
            else
              let new_sp := c.tr_cache.sp0
              let new_ss := c.tr_cache.ss0
              let old_ss := c.segregs regss
              let old_sp := c.regs regsp
              let c1 := load_descriptor_core raise c regss new_ss
              let c2 := { c1 with segregs := Function.update c1.segregs regss new_ss,
                                  regs := Function.update c1.regs regsp new_sp }
              let c3 := push_core raise c2 old_ss
              let c4 := push_core raise c3 old_sp
              let c5 := push_core raise c4 old_flags
              let c6 := push_core raise c5 old_cs
              let c7 := push_core raise c6 old_ip
              some (if intnum = 8 ∨ (10 ≤ intnum ∧ intnum ≤ 13) then push_core raise c7 0 else c7)
          else
            let c3 := push_core raise c old_flags
            let c4 := push_core raise c3 old_cs
            let c5 := push_core raise c4 old_ip
            some (if intnum = 8 ∨ (10 ≤ intnum ∧ intnum ≤ 13) then push_core raise c5 0 else c5)
        match afterPush with
        | none => raise c 8
        | some cT =>
          let d := load_descriptor_core raise cT regcs new_cs
          let d1 := { d with segregs := Function.update d.segregs regcs new_cs,
                             ip := new_ip, tf := 0 }
          let d2 := if gate_type = 0x06 then { d1 with ifl := 0 } else d1
          { d2 with handling_fault := 0 }
    else
      let flags_to_push := makeflagsword c
      let c1 := { c with ifl := 0, tf := 0 }
      let c2 := push_core raise c1 flags_to_push
      let c3 := push_core raise c2 (c2.segregs regcs)
      let c4 := push_core raise c3 c3.ip
      let p5 := getmem16_core raise c4 0 (intnum % 65536 * 4 + 2)
      let c5 := { p5.1 with segregs := Function.update p5.1.segregs regcs p5.2 }
      let p6 := getmem16_core raise c5 0 (intnum % 65536 * 4)
      let c6 := { p6.1 with ip := p6.2 }
      { c6 with handling_fault := 0 }

/-- `cpu_intcall`: the interrupt dispatcher; `fuel` bounds the
nested-fault recursion depth (each nested dispatcher call inside a
delivery runs with one unit less). -/
def cpu_intcall (cb : Nat → CPU → CPU) : Nat → CPU → Nat → CPU
  | 0, c, _ => c
  | Nat.succ f, c, intnum => intcallBody cb (fun c' n => cpu_intcall cb f c' n) c intnum

/-- `load_descriptor` with the nested fault calls dispatched through
`cpu_intcall` at the given fuel. -/
def load_descriptor (cb : Nat → CPU → CPU) (fuel : Nat) (c : CPU) (seg_reg : Fin 4) (selector : Nat) : CPU :=
  load_descriptor_core (fun c' n => cpu_intcall cb fuel c' n) c seg_reg selector

/-- `get_real_address` with nested faults dispatched through `cpu_intcall`. -/
def get_real_address (cb : Nat → CPU → CPU) (fuel : Nat) (c : CPU) (seg off : Nat) : CPU × Nat :=
  get_real_address_core (fun c' n => cpu_intcall cb fuel c' n) c seg off

/-- `getmem8` with nested faults dispatched through `cpu_intcall`. -/
def getmem8 (cb : Nat → CPU → CPU) (fuel : Nat) (c : CPU) (seg off : Nat) : CPU × Nat :=
  getmem8_core (fun c' n => cpu_intcall cb fuel c' n) c seg off

/-- `putmem8` with nested faults dispatched through `cpu_intcall`. -/
def putmem8 (cb : Nat → CPU → CPU) (fuel : Nat) (c : CPU) (seg off v : Nat) : CPU :=
  putmem8_core (fun c' n => cpu_intcall cb fuel c' n) c seg off v

/-- `getmem16` with nested faults dispatched through `cpu_intcall`. -/
def getmem16 (cb : Nat → CPU → CPU) (fuel : Nat) (c : CPU) (seg off : Nat) : CPU × Nat :=
  getmem16_core (fun c' n => cpu_intcall cb fuel c' n) c seg off

/-- `putmem16` with nested faults dispatched through `cpu_intcall`. -/
def putmem16 (cb : Nat → CPU → CPU) (fuel : Nat) (c : CPU) (seg off v : Nat) : CPU :=
  putmem16_core (fun c' n => cpu_intcall cb fuel c' n) c seg off v

/-- `push` with nested faults dispatched through `cpu_intcall`. -/
def push (cb : Nat → CPU → CPU) (fuel : Nat) (c : CPU) (v : Nat) : CPU :=
  push_core (fun c' n => cpu_intcall cb fuel c' n) c v

/-- The real-mode physical address map: `(seg << 4) + off`, masked to 20
bits when the A20 line is disabled (the real-mode branch of
`get_real_address`). -/
def realAddr (a20 : Bool) (seg off : Nat) : Nat :=
  if a20 then (seg <<< 4) + off else ((seg <<< 4) + off) &&& 0x000FFFFF

/-- Little-endian 16-bit write on the raw bus (two byte accesses, matching
`cpu_writew`). -/
def bus_write16 (m : Nat → Nat) (addr v : Nat) : Nat → Nat :=
  bus_write (bus_write m addr (v % 256)) (addr + 1) (v >>> 8 % 256)

/-- `readrm16`: memory forms read through `getea` and two raw byte reads;
register form reads the word register. -/
def readrm16 (c : CPU) (rmval : Nat) : CPU × Nat :=
  if c.mode < 3 then
    let c' := getea c rmval
    (c', cpu_read c' c'.ea ||| (cpu_read c' (c'.ea + 1) <<< 8))
  else
    (c, getreg16 c ⟨rmval % 8, Nat.mod_lt _ (by omega)⟩)

/-- `writerm16`: memory forms write through `getea`; register form stores
the word register. -/
def writerm16 (c : CPU) (rmval v : Nat) : CPU :=
  if c.mode < 3 then
    let c' := getea c rmval
    cpu_write (cpu_write c' c'.ea (v &&& 0xFF)) (c'.ea + 1) (v >>> 8)
  else
    putreg16 c ⟨rmval % 8, Nat.mod_lt _ (by omega)⟩ v

/-- Dispatcher case 0x01 (`ADD Ev Gv`) after the ModR/M byte has been
decoded into `mode`/`reg`/`rm`: `oper1 = readrm16(rm)`,
`oper2 = getreg16(reg)`, `op_add16`, `writerm16(rm, res16)`. -/
def exec_add01 (c : CPU) : CPU :=
  let p := readrm16 c c.rm
  let c1 := { p.1 with oper1 := p.2 }
  let c2 := { c1 with oper2 := getreg16 c1 ⟨c1.reg % 8, Nat.mod_lt _ (by omega)⟩ }
  let c3 := op_add16 c2
  writerm16 c3 c3.rm c3.res16

/-- Dispatcher case 0xA4 (`MOVSB`), one execution of the case body given
the instruction-start IP (`firstip`): rep with CX=0 is a no-op; otherwise
copy one byte from useseg:SI to ES:DI, step SI/DI by the direction flag,
decrement CX under a repetition prefix, and rewind IP to `firstip` when a
repetition prefix is active.  (The source also bumps the host loop
counter, which is not CPU state.) -/
def movsb_step (cb : Nat → CPU → CPU) (fuel : Nat) (c : CPU) (firstip : Nat) : CPU :=
  if c.reptype ≠ 0 ∧ c.regs regcx = 0 then c
  else
    let p := getmem8 cb fuel c c.useseg (c.regs regsi)
    let c1 := putmem8 cb fuel p.1 (p.1.segregs reges) (p.1.regs regdi) p.2
    let c2 :=
      if c1.df ≠ 0 then
        { c1 with regs := (Function.update (Function.update c1.regs regsi ((c1.regs regsi + 65535) % 65536)) regdi ((c1.regs regdi + 65535) % 65536)) }
      else
        { c1 with regs := (Function.update (Function.update c1.regs regsi ((c1.regs regsi + 1) % 65536)) regdi ((c1.regs regdi + 1) % 65536)) }
    let c3 :=
      if c2.reptype ≠ 0 then
        { c2 with regs := Function.update c2.regs regcx ((c2.regs regcx + 65535) % 65536) }
      else c2
    if c3.reptype = 0 then c3 else { c3 with ip := firstip }

/-- The set of one-byte instruction prefixes recognized by the dispatcher:
segment overrides, LOCK, REPNE, REP. -/
def isPfxByte (b : Nat) : Prop :=
  b = 0x2E ∨ b = 0x3E ∨ b = 0x26 ∨ b = 0x36 ∨ b = 0xF0 ∨ b = 0xF3 ∨ b = 0xF2

instance (b : Nat) : Decidable (isPfxByte b) := by
  unfold isPfxByte; infer_instance

/-- The prefix-collection loop of `cpu_exec` (one iteration per byte):
masks CS/IP, snapshots `savecs`/`saveip`, fetches a byte at CS:IP, steps
IP, increments the byte counter, raises interrupt 13 once the counter
exceeds 10 (the counter counts every byte read, the terminating opcode
included), otherwise records prefix effects and loops until a non-prefix
byte lands in `opcode`.  The returned flag is true when interrupt 13 was
raised.  `left` is a structural-recursion bound kept equal to
`11 - count` by the entry point `pfxCollect`; it is never exhausted
because the counter check fires first. -/
def pfxScan (cb : Nat → CPU → CPU) (fuel : Nat) : CPU → Nat → Nat → CPU × Bool
  | c, _, 0 => (c, false)
  | c, count, left + 1 =>
    let c0 := { c with segregs := Function.update c.segregs regcs (c.segregs regcs &&& 0xFFFF),
                       ip := c.ip &&& 0xFFFF }
    let c1 := { c0 with savecs := c0.segregs regcs, saveip := c0.ip }
    let p := getmem8 cb fuel c1 (c1.segregs regcs) c1.ip
    let c2 := { p.1 with opcode := p.2 }
    let c3 := { c2 with ip := (c2.ip + 1) % 65536 }
    if count + 1 > 10 then (cpu_intcall cb fuel c3 13, true)
    else if c3.opcode = 0x2E then
      pfxScan cb fuel { c3 with useseg := c3.segregs regcs, segoverride := 1 } (count + 1) left
    else if c3.opcode = 0x3E then
      pfxScan cb fuel { c3 with useseg := c3.segregs regds, segoverride := 1 } (count + 1) left
    else if c3.opcode = 0x26 then
      pfxScan cb fuel { c3 with useseg := c3.segregs reges, segoverride := 1 } (count + 1) left
    else if c3.opcode = 0x36 then
      pfxScan cb fuel { c3 with useseg := c3.segregs regss, segoverride := 1 } (count + 1) left
    else if c3.opcode = 0xF0 then
      pfxScan cb fuel c3 (count + 1) left
    else if c3.opcode = 0xF3 then
      pfxScan cb fuel { c3 with reptype := 1 } (count + 1) left
    else if c3.opcode = 0xF2 then
      pfxScan cb fuel { c3 with reptype := 2 } (count + 1) left
    else (c3, false)

/-- Entry into prefix collection at the start of an instruction (the
dispatcher has just cleared `reptype`/`segoverride` and set the default
data segment; `firstip` was captured as the current IP). -/
def pfxCollect (cb : Nat → CPU → CPU) (fuel : Nat) (c : CPU) : CPU × Bool :=
  pfxScan cb fuel c 0 11

/-- FPU tag value: valid. -/
def kFpuTagValid : Nat := 0
/-- FPU tag value: empty. -/
def kFpuTagEmpty : Nat := 3
/-- FPU status-word bit: invalid operation. -/
def kFpuSwIe : Nat := 0x0001
/-- FPU status-word bit: stack fault. -/
def kFpuSwSf : Nat := 0x0040
/-- FPU status-word bit: condition 1. -/
def kFpuSwC1 : Nat := 0x0200
/-- FPU status-word field: 3-bit top-of-stack pointer (bits 11-13). -/
def kFpuSwSp : Nat := 0x3800

/-- The top-of-stack field of the FPU status word. -/
def fpuTop (sw : Nat) : Nat := (sw &&& kFpuSwSp) >>> 11

/-- The `FpuSt` macro's physical index `((i + top) & 7)`; `i` may be -1
(the C call site passes -1 through an unsigned wrap, which agrees with
the Euclidean remainder mod 8). -/
def fpuStIdx (sw : Nat) (i : Int) : Fin 8 :=
  ⟨((i + (fpuTop sw : Int)) % 8).toNat, by
    have h1 : (0 : Int) ≤ (i + (fpuTop sw : Int)) % 8 := Int.emod_nonneg _ (by omega)
    have h2 : (i + (fpuTop sw : Int)) % 8 < 8 := Int.emod_lt_of_pos _ (by omega)
    omega⟩

/-- The two-bit tag-word field extraction of `FpuGetTag` (`t &= 3 << i;
t >>= i`). -/
def tagGet (tw j : Nat) : Nat := (tw &&& (3 <<< j)) >>> j

/-- The two-bit tag-word field replacement of `FpuSetTag` (`tw &= ~(3 <<
i); tw |= t << i`, with the uint16 complement written against 0xFFFF). -/
def tagSet (tw j t : Nat) : Nat :=
  tw &&& (0xFFFF ^^^ (3 <<< j)) ||| ((t &&& 3) <<< j)

/-- `FpuGetTag`: tag of the logical slot `i` relative to the top. -/
def FpuGetTag (f : FPUState) (i : Int) : Nat :=
  tagGet f.tw (2 * (fpuStIdx f.sw i).val)

/-- `FpuSetTag`: replace the tag of the logical slot `i`. -/
def FpuSetTag (f : FPUState) (i : Int) (t : Nat) : FPUState :=
  { f with tw := tagSet f.tw (2 * (fpuStIdx f.sw i).val) t }

/-- `OnFpuStackOverflow`: sets `{IE, C1, SF}` in the status word. -/
def OnFpuStackOverflow (f : FPUState) : FPUState :=
  { f with sw := f.sw ||| (kFpuSwIe ||| kFpuSwC1 ||| kFpuSwSf) }

/-- The bit pattern of the `-NAN` returned by `OnFpuStackUnderflow`
(negated quiet NaN of the host C library). -/
def negNaNBits : Nat := 0xFFF8000000000000

/-- `OnFpuStackUnderflow`'s status-word effect: set `{IE, SF}`, clear C1
(the uint16 complement of C1 is written against 0xFFFF). -/
def OnFpuStackUnderflowSw (f : FPUState) : FPUState :=
  { f with sw := (f.sw ||| (kFpuSwIe ||| kFpuSwSf)) &&& (0xFFFF ^^^ kFpuSwC1) }

/-- `FpuPush`: flag stack overflow if logical slot -1 is occupied, then
decrement `top` (the `sw - (1 << 11)` is int arithmetic on the promoted
uint16, so the subtraction wraps in two's complement before the Sp mask),
store the value at the new top and tag it valid. -/
def FpuPush (f : FPUState) (x : Nat) : FPUState :=
  let f1 := if FpuGetTag f (-1) ≠ kFpuTagEmpty then OnFpuStackOverflow f else f
  let sw2 := (f1.sw &&& (0xFFFF ^^^ kFpuSwSp)) |||
             ((f1.sw + 4294967296 - 2048) % 4294967296 &&& kFpuSwSp)
  let f2 := { f1 with sw := sw2 }
  let f3 := { f2 with st := Function.update f2.st (fpuStIdx sw2 0) x }
  FpuSetTag f3 0 kFpuTagValid

/-- `FpuPop`: read the top slot and mark it empty (or flag stack underflow
and produce `-NAN`), then increment `top` mod 8. -/
def FpuPop (f : FPUState) : Nat × FPUState :=
  if FpuGetTag f 0 ≠ kFpuTagEmpty then
    let x := f.st (fpuStIdx f.sw 0)
    let f1 := FpuSetTag f 0 kFpuTagEmpty
    let f2 := { f1 with sw := (f1.sw &&& (0xFFFF ^^^ kFpuSwSp)) ||| ((f1.sw + 2048) &&& kFpuSwSp) }
    (x, f2)
  else
    let f1 := OnFpuStackUnderflowSw f
    let f2 := { f1 with sw := (f1.sw &&& (0xFFFF ^^^ kFpuSwSp)) ||| ((f1.sw + 2048) &&& kFpuSwSp) }
    (negNaNBits, f2)

/-- All-zero memory. -/
def mem0 : Nat → Nat := fun _ => 0

/-- FPU state after `OpFinit` with an all-zero stack. -/
def fpu0 : FPUState :=
  { st := fun _ => 0, cw := 0x037F, sw := 0, tw := 0xFFFF,
    fip := 0, fcs := 0, fdp := 0, fds := 0, fop := 0 }

/-- A baseline real-mode CPU state used by the concrete witnesses. -/
def baseCpu : CPU :=
  { regs := fun _ => 0, segregs := fun _ => 0, ip := 0, saveip := 0, savecs := 0,
    cf := 0, pf := 0, af := 0, zf := 0, sf := 0, ofl := 0, df := 0, ifl := 0, tf := 0,
    msw := 0xFFF0, protected_mode := 0, handling_fault := 0,
    gdtr := ⟨0, 0xFFFF⟩, idtr := ⟨0, 0x3FF⟩, ldtr := 0, tr := 0,
    ldtr_cache := ⟨0, 0, 0, 0⟩, tr_cache := ⟨0, 0, 0, 0, 0, 0⟩,
    segcache := fun _ => ⟨0, 0, 0, 0⟩,
    hltstate := 0, trap_toggle := 0, reptype := 0, segoverride := 0, useseg := 0,
    opcode := 0, mode := 0, reg := 0, rm := 0, disp16 := 0, ea := 0,
    oper1 := 0, oper2 := 0, res16 := 0, oper1b := 0, oper2b := 0, res8 := 0,
    int_callback := fun _ => false, a20 := true, mem := mem0, fpu := fpu0 }

/-- The trivial host-callback behaviour (identity), used by witnesses. -/
def cbNone : Nat → CPU → CPU := fun _ c => c

/-- Concrete state for the C1 witness: a fault delivery is in flight. -/
def c1cpu : CPU :=
  { baseCpu with
    handling_fault := 1,
    ip := 0x77,
    segregs := fun i => if i = regcs then 0x2222 else 0 }

/-- Concrete state for the C2 witness: REP MOVSB with CX=5, DF=0,
useseg:SI = 0010:0004, ES:DI = 0020:0008, instruction start at IP 0x30. -/
def c2cpu : CPU :=
  { baseCpu with
    reptype := 1,
    useseg := 0x10,
    regs := fun i => if i = regcx then 5 else if i = regsi then 4 else if i = regdi then 8 else 0,
    segregs := fun i => if i = reges then 0x20 else 0,
    ip := 0x33,
    mem := fun a => if a = 0x104 then 0x77 else 0 }

/-- Concrete state for the C3 witness: real mode, SS:SP = 0100:0200,
IF=TF=1, vector 0x21 pointing at 1234:ABCD. -/
def c3cpu : CPU :=
  { baseCpu with
    segregs := fun i => if i = regss then 0x100 else 0,
    regs := fun i => if i = regsp then 0x200 else 0,
    ip := 0x55,
    ifl := 1,
    tf := 1,
    mem := fun a => if a = 0x84 then 0xCD else if a = 0x85 then 0xAB else if a = 0x86 then 0x34 else if a = 0x87 then 0x12 else 0 }

/-- Concrete state for the C4 witness: protected mode. -/
def c4cpu : CPU := { baseCpu with protected_mode := 1 }

/-- Concrete state for C5: about to execute `ADD AX,BX` (opcode 0x01,
ModR/M 0xD8 decoded as mod=3, reg=3 (BX), rm=0 (AX)) with AX=0x7FFF and
BX=0x0001. -/
def c5cpu : CPU :=
  { baseCpu with
    mode := 3,
    reg := 3,
    rm := 0,
    regs := fun i => if i = regax then 0x7FFF else if i = regbx then 1 else 0 }

/-- Concrete state for the C7 counterexample: ten 0x26 prefix bytes at
CS:IP = 0000:0000 followed by a NOP. -/
def c7cpu : CPU :=
  { baseCpu with
    mem := fun a => if a < 10 then 0x26 else if a = 10 then 0x90 else 0 }

/-- Concrete state for the C7 witness: two prefix bytes then a NOP. -/
def c7okCpu : CPU :=
  { baseCpu with
    mem := fun a => if a < 2 then 0x26 else if a = 2 then 0x90 else 0 }

/-- Concrete state for the C10 witness, AH=0x88 branch. -/
def c10aCpu : CPU :=
  { baseCpu with
    regs := fun i => if i = regax then 0x8800 else 0 }

/-- Concrete state for the C10 witness, AH=0x87 branch: CX=2 words,
descriptor table at ES:SI = 0010:0040 with source base 0x200 and
destination base 0x300. -/
def c10bCpu : CPU :=
  { baseCpu with
    regs := fun i => if i = regax then 0x8700 else if i = regcx then 2 else if i = regsi then 0x40 else 0,
    segregs := fun i => if i = reges then 0x10 else 0,
    mem := fun a => if a = 0x14A then 0x00 else if a = 0x14B then 0x02 else if a = 0x152 then 0x00 else if a = 0x153 then 0x03 else if a = 0x200 then 0x5A else if a = 0x201 then 0x5B else if a = 0x202 then 0x5C else if a = 0x203 then 0x5D else 0 }

set_option maxHeartbeats 2000000

/-- In real mode `get_real_address` is pure and computes `realAddr`. -/
theorem get_real_address_core_real (r : CPU → Nat → CPU) (c : CPU) (seg off : Nat)
    (h : c.protected_mode = 0) :
    get_real_address_core r c seg off = (c, realAddr c.a20 seg off) := by
  simp [get_real_address_core, realAddr, h]

/-- In real mode `push` decrements SP and writes the word at the real
address of SS:SP. -/
theorem push_core_real (r : CPU → Nat → CPU) (c : CPU) (w : Nat)
    (h : c.protected_mode = 0) :
    push_core r c w =
      { c with
        regs := Function.update c.regs regsp ((c.regs regsp + 65534) % 65536),
        mem := bus_write16 c.mem
          (realAddr c.a20 (c.segregs regss) ((c.regs regsp + 65534) % 65536)) w } := by
  simp [push_core, putmem16_core, get_real_address_core, realAddr, cpu_writew, cpu_write,
    bus_write16, h]

/-- In real mode `getmem16` is a pure little-endian word read. -/
theorem getmem16_core_real (r : CPU → Nat → CPU) (c : CPU) (seg off : Nat)
    (h : c.protected_mode = 0) :
    getmem16_core r c seg off = (c, bus_read16 c.mem (realAddr c.a20 seg off)) := by
  simp [getmem16_core, get_real_address_core, realAddr, cpu_readw, cpu_read, bus_read16,
    bus_read, h]

/-- In real mode `getmem8` is a pure byte read. -/
theorem getmem8_core_real (r : CPU → Nat → CPU) (c : CPU) (seg off : Nat)
    (h : c.protected_mode = 0) :
    getmem8_core r c seg off = (c, bus_read c.mem (realAddr c.a20 seg off)) := by
  simp [getmem8_core, get_real_address_core, realAddr, cpu_read, bus_read, h]

/-- In real mode `putmem8` is a pure byte write. -/
theorem putmem8_core_real (r : CPU → Nat → CPU) (c : CPU) (seg off v : Nat)
    (h : c.protected_mode = 0) :
    putmem8_core r c seg off v =
      { c with mem := bus_write c.mem (realAddr c.a20 seg off) v } := by
  simp [putmem8_core, get_real_address_core, realAddr, cpu_write, h]

/-- C1: the claim says a fault raised while the fault-in-flight latch is
set is re-delivered as a double fault (vector 8), with a reset only when
the latch is set and v = 8.  The code instead resets for EVERY vector
while the latch is set: the recursive vector-8 call sees the latch still
set and takes the triple-fault branch.  This theorem evaluates the code
on that path: with the latch set, any dispatch is a full reset. -/
theorem c1_latched_dispatch_resets (cb : Nat → CPU → CPU) (fuel : Nat) (c : CPU) (v : Nat)
    (h : c.handling_fault ≠ 0) :
    cpu_intcall cb (fuel + 2) c v = cpu_reset c := by
  by_cases h8 : v = 8
  · simp [cpu_intcall, intcallBody, h, h8]
  · simp [cpu_intcall, intcallBody, h, h8]

/-- Witness for C1 at the concrete failing input: latch set, vector 13
(a general-protection fault raised during another fault's delivery)
resets the machine to CS:IP = F000:FFF0 instead of delivering vector 8. -/
theorem c1_latched_dispatch_resets_witness :
    c1cpu.handling_fault ≠ 0 ∧
    cpu_intcall cbNone (0 + 2) c1cpu 13 = cpu_reset c1cpu :=
  ⟨by decide, c1_latched_dispatch_resets cbNone 0 c1cpu 13 (by decide)⟩

/-- C3: real-mode interrupt delivery with no host callback and not the
intercepted BIOS vector: push the pre-delivery flags word, then CS, then
IP (SP dropping by 6 mod 2^16), clear TF and IF, and load IP from
physical v*4 and CS from v*4+2; nothing else changes. -/
theorem c3_realmode_delivery (cb : Nat → CPU → CPU) (fuel : Nat) (c : CPU) (v : Nat)
    (hflt : c.handling_fault = 0) (hprot : c.protected_mode = 0)
    (hcb : c.int_callback v = false) (hv15 : v ≠ 0x15) (hv : v < 256) :
    cpu_intcall cb (fuel + 1) c v =
      (let a1 := realAddr c.a20 (c.segregs regss) ((c.regs regsp + 65534) % 65536)
       let a2 := realAddr c.a20 (c.segregs regss) ((c.regs regsp + 65532) % 65536)
       let a3 := realAddr c.a20 (c.segregs regss) ((c.regs regsp + 65530) % 65536)
       let m3 := bus_write16 (bus_write16 (bus_write16 c.mem a1 (makeflagsword c)) a2 (c.segregs regcs)) a3 c.ip
       { c with
         mem := m3,
         regs := Function.update c.regs regsp ((c.regs regsp + 65530) % 65536),
         ifl := 0, tf := 0, handling_fault := 0,
         segregs := Function.update c.segregs regcs (bus_read16 m3 (v * 4 + 2)),
         ip := bus_read16 m3 (v * 4) }) := by
  have hsp2 : ∀ x : Nat, ((x + 65534) % 65536 + 65534) % 65536 = (x + 65532) % 65536 := by omega
  have hsp3 : ∀ x : Nat, ((x + 65532) % 65536 + 65534) % 65536 = (x + 65530) % 65536 := by omega
  have hmask2 : (v * 4 + 2) &&& 0xFFFFF = v * 4 + 2 := by
    rw [Nat.and_pow_two_sub_one_eq_mod (v * 4 + 2) 20]; omega
  have hmask0 : (v * 4) &&& 0xFFFFF = v * 4 := by
    rw [Nat.and_pow_two_sub_one_eq_mod (v * 4) 20]; omega
  have hvmod : v % 65536 = v := by omega
  by_cases hv8 : v = 8 ∨ v = 10 ∨ v = 11 ∨ v = 12 ∨ v = 13
  all_goals
    simp only [cpu_intcall, intcallBody, hflt, hprot, hcb, hv15, hv8, realAddr, makeflagsword,
      push_core_real, getmem16_core_real,
      bus_write16, bus_read16, Function.update_same, Function.update_idem,
      if_false, if_true, ne_eq, not_true, not_false_iff, ite_false, ite_true,
      ite_self, Nat.zero_shiftLeft, Nat.zero_add, hsp2, hsp3, hvmod, hmask2, hmask0,
      false_and, and_false, false_or, or_false, decide_eq_true_eq, not_false_eq_true,
      Bool.false_eq_true, if_neg, if_pos]

/-- Witness for C3 at vector 0x21 on the concrete state `c3cpu`. -/
theorem c3_realmode_delivery_witness :
    cpu_intcall cbNone (0 + 1) c3cpu 0x21 =
      (let a1 := realAddr c3cpu.a20 (c3cpu.segregs regss) ((c3cpu.regs regsp + 65534) % 65536)
       let a2 := realAddr c3cpu.a20 (c3cpu.segregs regss) ((c3cpu.regs regsp + 65532) % 65536)
       let a3 := realAddr c3cpu.a20 (c3cpu.segregs regss) ((c3cpu.regs regsp + 65530) % 65536)
       let m3 := bus_write16 (bus_write16 (bus_write16 c3cpu.mem a1 (makeflagsword c3cpu)) a2 (c3cpu.segregs regcs)) a3 c3cpu.ip
       { c3cpu with
         mem := m3,
         regs := Function.update c3cpu.regs regsp ((c3cpu.regs regsp + 65530) % 65536),
         ifl := 0, tf := 0, handling_fault := 0,
         segregs := Function.update c3cpu.segregs regcs (bus_read16 m3 (0x21 * 4 + 2)),
         ip := bus_read16 m3 (0x21 * 4) }) :=
  c3_realmode_delivery cbNone 0 c3cpu 0x21 rfl rfl rfl (by decide) (by decide)

/-- C4: loading a null selector (sel & 0xFFFC = 0) through the descriptor
loader: into SS it raises general protection (vector 13) on the unchanged
state (SS and its cache are not written); into any other segment register
it marks that register's cache invalid and stores the selector, reading
no descriptor table and raising no fault. -/
theorem c4_null_selector (cb : Nat → CPU → CPU) (fuel : Nat) (c : CPU) (sel : Nat)
    (h : sel &&& 0xFFFC = 0) :
    (load_descriptor cb fuel c regss sel = cpu_intcall cb fuel c 13) ∧
    (∀ r : Fin 4, r ≠ regss →
      load_descriptor cb fuel c r sel =
        { c with
          segcache := Function.update c.segcache r { c.segcache r with valid := 0 },
          segregs := Function.update c.segregs r sel }) := by
  constructor
  · simp [load_descriptor, load_descriptor_core, h]
  · intro r hr
    simp [load_descriptor, load_descriptor_core, h, hr]

/-- Witness for C4: selector 0 into SS and into DS on a concrete
protected-mode state. -/
theorem c4_null_selector_witness :
    (load_descriptor cbNone 3 c4cpu regss 0 = cpu_intcall cbNone 3 c4cpu 13) ∧
    (load_descriptor cbNone 3 c4cpu regds 0 =
      { c4cpu with
        segcache := Function.update c4cpu.segcache regds { c4cpu.segcache regds with valid := 0 },
        segregs := Function.update c4cpu.segregs regds 0 }) :=
  ⟨(c4_null_selector cbNone 3 c4cpu 0 (by decide)).1,
   (c4_null_selector cbNone 3 c4cpu 0 (by decide)).2 regds (by decide)⟩

/-- C5 counterexample: executing ADD AX,BX with AX=0x7FFF, BX=0x0001 does
give AX=0x8000, ZF=0, SF=1, OF=1, CF=0, AF=1, but PF is 1 (the low result
byte 0x00 has even parity), not 0 as the claim states. -/
theorem c5_add_flags_counterexample :
    ¬ ((exec_add01 c5cpu).regs regax = 0x8000 ∧ (exec_add01 c5cpu).zf = 0 ∧
       (exec_add01 c5cpu).sf = 1 ∧ (exec_add01 c5cpu).ofl = 1 ∧
       (exec_add01 c5cpu).cf = 0 ∧ (exec_add01 c5cpu).af = 1 ∧
       (exec_add01 c5cpu).pf = 0) := by decide

/-- C5 amended: the same execution with PF = 1. -/
theorem c5_add_flags_amended :
    (exec_add01 c5cpu).regs regax = 0x8000 ∧ (exec_add01 c5cpu).zf = 0 ∧
    (exec_add01 c5cpu).sf = 1 ∧ (exec_add01 c5cpu).ofl = 1 ∧
    (exec_add01 c5cpu).cf = 0 ∧ (exec_add01 c5cpu).af = 1 ∧
    (exec_add01 c5cpu).pf = 1 := by decide

/-- C6: the claim (and real hardware) require SBB to set CF = 1 whenever
a < b + c computed without wrap-around, so SBB with b = 0xFF and carry-in
1 must set CF for every a.  The code folds the carry into the
width-limited source operand first (`v2 += v3` wraps 0xFF + 1 to 0), so
CF comes out 0; the 16-bit variant wraps the same way at b = 0xFFFF.
The result value itself is still correct mod 2^8. -/
theorem c6_sbb_carry_bug :
    (flag_sbb8 baseCpu 0x00 0xFF 1).cf = 0 ∧
    (flag_sbb8 baseCpu 0x42 0xFF 1).cf = 0 ∧
    (flag_sbb16 baseCpu 0x0000 0xFFFF 1).cf = 0 ∧
    (op_sbb8 { baseCpu with oper1b := 0, oper2b := 0xFF, cf := 1 }).res8 = 0 := by decide

/-- C9: in real mode every address formation computes `(seg << 4) + off`
when A20 is enabled and `((seg << 4) + off) mod 2^20` when A20 is
disabled — both for `get_real_address` (which also leaves the state
untouched) and for `getea`'s effective addresses; in particular
FFFF:0010 maps to physical 0 with A20 off and 0x100000 with A20 on. -/
theorem c9_a20_address_formation (cb : Nat → CPU → CPU) (fuel : Nat) (c : CPU)
    (hprot : c.protected_mode = 0) (seg off : Nat) :
    ((get_real_address cb fuel c seg off).1 = c) ∧
    ((get_real_address cb fuel c seg off).2 =
      if c.a20 then seg * 16 + off else (seg * 16 + off) % 2 ^ 20) ∧
    (∀ rmval, (getea c rmval).ea =
      (if c.a20 then c.useseg * 16 + (getea_offset c rmval &&& 0xFFFF)
       else (c.useseg * 16 + (getea_offset c rmval &&& 0xFFFF)) % 2 ^ 20)) ∧
    ((get_real_address cb fuel { c with a20 := false } 0xFFFF 0x10).2 = 0) ∧
    ((get_real_address cb fuel { c with a20 := true } 0xFFFF 0x10).2 = 0x100000) := by
  have hmask : ∀ x : Nat, x &&& 0xFFFFF = x % 2 ^ 20 := fun x =>
    Nat.and_pow_two_sub_one_eq_mod x 20
  refine ⟨?_, ?_, ?_, ?_, ?_⟩
  · simp [get_real_address, get_real_address_core, hprot]
  · simp [get_real_address, get_real_address_core, hprot, hmask, Nat.shiftLeft_eq]
  · intro rmval
    simp [getea, hprot, hmask, Nat.shiftLeft_eq]
  · simp [get_real_address, get_real_address_core, hprot, hmask, Nat.shiftLeft_eq]
  · simp [get_real_address, get_real_address_core, hprot, Nat.shiftLeft_eq]

/-- Witness for C9 on the baseline state at 1234:0042. -/
theorem c9_a20_address_formation_witness :
    ((get_real_address cbNone 1 baseCpu 0x1234 0x42).1 = baseCpu) ∧
    ((get_real_address cbNone 1 baseCpu 0x1234 0x42).2 =
      if baseCpu.a20 then 0x1234 * 16 + 0x42 else (0x1234 * 16 + 0x42) % 2 ^ 20) ∧
    ((getea baseCpu 0).ea =
      (if baseCpu.a20 then baseCpu.useseg * 16 + (getea_offset baseCpu 0 &&& 0xFFFF)
       else (baseCpu.useseg * 16 + (getea_offset baseCpu 0 &&& 0xFFFF)) % 2 ^ 20)) ∧
    ((get_real_address cbNone 1 { baseCpu with a20 := false } 0xFFFF 0x10).2 = 0) ∧
    ((get_real_address cbNone 1 { baseCpu with a20 := true } 0xFFFF 0x10).2 = 0x100000) :=
  ⟨(c9_a20_address_formation cbNone 1 baseCpu rfl 0x1234 0x42).1,
   (c9_a20_address_formation cbNone 1 baseCpu rfl 0x1234 0x42).2.1,
   (c9_a20_address_formation cbNone 1 baseCpu rfl 0x1234 0x42).2.2.1 0,
   (c9_a20_address_formation cbNone 1 baseCpu rfl 0x1234 0x42).2.2.2.1,
   (c9_a20_address_formation cbNone 1 baseCpu rfl 0x1234 0x42).2.2.2.2⟩



theorem and_field (x n m : Nat) :
    x &&& ((2 ^ m - 1) <<< n) = x / 2 ^ n % 2 ^ m * 2 ^ n := by
  apply Nat.eq_of_testBit_eq
  intro i
  rw [Nat.testBit_and, Nat.testBit_shiftLeft, Nat.testBit_two_pow_sub_one]
  conv_rhs => rw [Nat.mul_comm]
  rw [Nat.testBit_mul_pow_two, Nat.testBit_mod_two_pow,
    ← Nat.shiftRight_eq_div_pow, Nat.testBit_shiftRight]
  by_cases h1 : n ≤ i
  · have h2 : n + (i - n) = i := by omega
    rw [h2]
    by_cases h3 : i - n < m <;> simp [h1, h3, Bool.and_comm]
  · simp [h1]

theorem and_compl_field (x n m : Nat) (hx : x < 2 ^ 16) (hnm : n + m ≤ 16) :
    x &&& ((2 ^ 16 - 1) ^^^ ((2 ^ m - 1) <<< n)) =
      x % 2 ^ n + x / 2 ^ (n + m) * 2 ^ (n + m) := by
  have hlt : x % 2 ^ n < 2 ^ (n + m) := by
    calc x % 2 ^ n < 2 ^ n := Nat.mod_lt _ (Nat.two_pow_pos n)
    _ ≤ 2 ^ (n + m) := Nat.pow_le_pow_right (by omega) (by omega)
  rw [Nat.add_comm (x % 2 ^ n), ← Nat.mul_comm (2 ^ (n + m)), Nat.mul_add_lt_is_or hlt]
  apply Nat.eq_of_testBit_eq
  intro i
  rw [Nat.testBit_and, Nat.testBit_xor, Nat.testBit_two_pow_sub_one,
    Nat.testBit_shiftLeft, Nat.testBit_two_pow_sub_one, Nat.testBit_or,
    Nat.testBit_mul_pow_two, Nat.testBit_mod_two_pow,
    ← Nat.shiftRight_eq_div_pow, Nat.testBit_shiftRight]
  rcases Nat.lt_or_ge i 16 with h0 | h0
  · rcases Nat.lt_or_ge i n with h1 | h1
    · have d1 : ¬ (n + m ≤ i) := by omega
      have d2 : ¬ (n ≤ i) := by omega
      simp [h0, h1, d1, d2]
    · rcases Nat.lt_or_ge i (n + m) with h2 | h2
      · have d2 : i - n < m := by omega
        have d3 : ¬ (n + m ≤ i) := by omega
        have d4 : ¬ (i < n) := by omega
        simp [h0, h1, d2, d3, d4]
      · have h3 : n + m + (i - (n + m)) = i := by omega
        rw [h3]
        have d1 : n ≤ i := by omega
        have d2 : ¬ (i - n < m) := by omega
        have d4 : ¬ (i < n) := by omega
        simp [h0, d1, d2, h2, d4]
  · have hxb : Nat.testBit x i = false := Nat.testBit_lt_two_pow (by
      calc x < 2 ^ 16 := hx
      _ ≤ 2 ^ i := Nat.pow_le_pow_right (by omega) (by omega))
    have d0 : ¬ (i < 16) := by omega
    have h3 : n + m + (i - (n + m)) = i := by omega
    rw [h3]
    simp [d0, hxb]

theorem or_insert (h t l n m : Nat) (hl : l < 2 ^ n) (ht : t < 2 ^ m) :
    (h * 2 ^ (n + m) + l) ||| t * 2 ^ n = h * 2 ^ (n + m) + t * 2 ^ n + l := by
  have hl2 : l < 2 ^ (n + m) := by
    calc l < 2 ^ n := hl
    _ ≤ 2 ^ (n + m) := Nat.pow_le_pow_right (by omega) (by omega)
  have htl : 2 ^ n * t + l < 2 ^ (n + m) := by
    have hstep : (t + 1) * 2 ^ n ≤ 2 ^ m * 2 ^ n := Nat.mul_le_mul_right _ (by omega)
    rw [← Nat.pow_add] at hstep
    calc 2 ^ n * t + l < 2 ^ n * t + 2 ^ n := by omega
    _ = (t + 1) * 2 ^ n := by ring
    _ ≤ 2 ^ (m + n) := hstep
    _ = 2 ^ (n + m) := by rw [Nat.add_comm]
  have e1 : h * 2 ^ (n + m) + l = 2 ^ (n + m) * h ||| l := by
    rw [Nat.mul_comm]
    exact Nat.mul_add_lt_is_or hl2 h
  have e2 : 2 ^ n * t + l = 2 ^ n * t ||| l := by
    have := Nat.mul_add_lt_is_or hl (t : Nat)
    omega
  have e3 : h * 2 ^ (n + m) + t * 2 ^ n + l = 2 ^ (n + m) * h + (2 ^ n * t + l) := by ring
  rw [e1, e3, Nat.mul_add_lt_is_or htl, e2, show t * 2 ^ n = 2 ^ n * t from Nat.mul_comm t _,
    Nat.or_assoc, Nat.or_comm l (2 ^ n * t)]



theorem fpuTop_arith (sw : Nat) : fpuTop sw = sw / 2048 % 8 := by
  have h := and_field sw 11 3
  have hc : ((2 ^ 3 - 1 : Nat) <<< 11) = kFpuSwSp := by decide
  rw [hc] at h
  unfold fpuTop
  rw [h, Nat.shiftRight_eq_div_pow]
  omega

theorem tagGet_arith (tw j : Nat) : tagGet tw j = tw / 2 ^ j % 4 := by
  unfold tagGet
  have hc : ((3 : Nat) <<< j) = (2 ^ 2 - 1) <<< j := by norm_num
  rw [hc, and_field, Nat.shiftRight_eq_div_pow, Nat.mul_div_cancel _ (Nat.two_pow_pos j)]
  norm_num

theorem tagSet_arith (tw j t : Nat) (htw : tw < 2 ^ 16) (hj : j + 2 ≤ 16) :
    tagSet tw j t = tw / 2 ^ (j + 2) * 2 ^ (j + 2) + t % 4 * 2 ^ j + tw % 2 ^ j := by
  unfold tagSet
  have hc : ((0xFFFF : Nat) ^^^ (3 <<< j)) = (2 ^ 16 - 1) ^^^ ((2 ^ 2 - 1) <<< j) := by norm_num
  rw [hc, and_compl_field tw j 2 htw hj]
  have hc2 : (t &&& 3) <<< j = t % 4 * 2 ^ j := by
    rw [Nat.shiftLeft_eq, show (3 : Nat) = 2 ^ 2 - 1 from rfl, Nat.and_pow_two_sub_one_eq_mod]
  rw [hc2, Nat.add_comm (tw % 2 ^ j),
    or_insert (tw / 2 ^ (j + 2)) (t % 4) (tw % 2 ^ j) j 2 (Nat.mod_lt _ (Nat.two_pow_pos j)) (by omega)]

theorem tw_decomp (tw j : Nat) :
    tw = tw / 2 ^ (j + 2) * 2 ^ (j + 2) + tw / 2 ^ j % 4 * 2 ^ j + tw % 2 ^ j := by
  have h3 : tw / 2 ^ j / 4 = tw / 2 ^ (j + 2) := by
    rw [Nat.div_div_eq_div_mul, pow_add]
    norm_num
  have hpe : (2 : Nat) ^ (j + 2) = 2 ^ j * 4 := by rw [pow_add]; norm_num
  calc tw = 2 ^ j * (tw / 2 ^ j) + tw % 2 ^ j := (Nat.div_add_mod _ _).symm
  _ = 2 ^ j * (4 * (tw / 2 ^ j / 4) + tw / 2 ^ j % 4) + tw % 2 ^ j := by
    conv_rhs => rw [Nat.div_add_mod]
  _ = tw / 2 ^ j / 4 * (2 ^ j * 4) + tw / 2 ^ j % 4 * 2 ^ j + tw % 2 ^ j := by ring
  _ = tw / 2 ^ (j + 2) * 2 ^ (j + 2) + tw / 2 ^ j % 4 * 2 ^ j + tw % 2 ^ j := by
    rw [h3, hpe]

theorem tag_get_set0 (tw j : Nat) (htw : tw < 2 ^ 16) (hj : j + 2 ≤ 16) :
    tagGet (tagSet tw j 0) j = 0 := by
  rw [tagSet_arith tw j 0 htw hj, tagGet_arith]
  have hp : (0 : Nat) < 2 ^ j := Nat.two_pow_pos j
  have hpe : (2 : Nat) ^ (j + 2) = 2 ^ j * 4 := by rw [pow_add]; norm_num
  have he : tw / 2 ^ (j + 2) * 2 ^ (j + 2) + 0 % 4 * 2 ^ j + tw % 2 ^ j =
      tw % 2 ^ j + (tw / 2 ^ (j + 2) * 4) * 2 ^ j := by rw [hpe]; ring
  rw [he, Nat.add_mul_div_right _ _ hp, Nat.div_eq_of_lt (Nat.mod_lt _ hp)]
  omega

theorem tag_set_set (tw j : Nat) (htw : tw < 2 ^ 16) (hj : j + 2 ≤ 16)
    (hget : tagGet tw j = 3) :
    tagSet (tagSet tw j 0) j 3 = tw := by
  rw [tagGet_arith] at hget
  have hp : (0 : Nat) < 2 ^ j := Nat.two_pow_pos j
  have hpe : (2 : Nat) ^ (j + 2) = 2 ^ j * 4 := by rw [pow_add]; norm_num
  have hinner := tagSet_arith tw j 0 htw hj
  have hIle : tagSet tw j 0 < 2 ^ 16 := by
    rw [hinner]
    have := tw_decomp tw j
    omega
  rw [tagSet_arith _ j 3 hIle hj, hinner]
  have hA : tw % 2 ^ j < 2 ^ j := Nat.mod_lt _ hp
  have e1 : tw / 2 ^ (j + 2) * 2 ^ (j + 2) + 0 % 4 * 2 ^ j + tw % 2 ^ j =
      tw % 2 ^ j + tw / 2 ^ (j + 2) * 2 ^ (j + 2) := by ring
  rw [e1]
  have hd : (tw % 2 ^ j + tw / 2 ^ (j + 2) * 2 ^ (j + 2)) / 2 ^ (j + 2) = tw / 2 ^ (j + 2) := by
    rw [Nat.add_mul_div_right _ _ (Nat.two_pow_pos (j + 2)),
      Nat.div_eq_of_lt (by
        calc tw % 2 ^ j < 2 ^ j := hA
        _ ≤ 2 ^ (j + 2) := Nat.pow_le_pow_right (by omega) (by omega))]
    omega
  have hm : (tw % 2 ^ j + tw / 2 ^ (j + 2) * 2 ^ (j + 2)) % 2 ^ j = tw % 2 ^ j := by
    rw [hpe, show tw / (2 ^ j * 4) * (2 ^ j * 4) = tw / (2 ^ j * 4) * 4 * 2 ^ j from by ring,
      Nat.add_mul_mod_self_right]
    simp [Nat.mod_mod_of_dvd]
  rw [hd, hm]
  conv_rhs => rw [tw_decomp tw j]
  rw [hget]

theorem stIdx_zero (sw : Nat) : (fpuStIdx sw 0).val = fpuTop sw := by
  have h8 : fpuTop sw < 8 := by rw [fpuTop_arith]; omega
  show (((0 : Int) + (fpuTop sw : Int)) % 8).toNat = fpuTop sw
  omega

theorem stIdx_neg1 (sw : Nat) : (fpuStIdx sw (-1)).val = (fpuTop sw + 7) % 8 := by
  have h8 : fpuTop sw < 8 := by rw [fpuTop_arith]; omega
  show (((-1 : Int) + (fpuTop sw : Int)) % 8).toNat = (fpuTop sw + 7) % 8
  omega



theorem swPush_arith (sw : Nat) (h : sw < 2 ^ 16) :
    (sw &&& (0xFFFF ^^^ kFpuSwSp)) ||| ((sw + 4294967296 - 2048) % 4294967296 &&& kFpuSwSp) =
      sw / 2 ^ 14 * 2 ^ 14 + (sw + 4294967296 - 2048) % 4294967296 / 2 ^ 11 % 2 ^ 3 * 2 ^ 11 + sw % 2 ^ 11 := by
  have hc : ((0xFFFF : Nat) ^^^ kFpuSwSp) = (2 ^ 16 - 1) ^^^ ((2 ^ 3 - 1) <<< 11) := by decide
  have hc2 : (kFpuSwSp : Nat) = (2 ^ 3 - 1) <<< 11 := by decide
  rw [hc, and_compl_field sw 11 3 h (by norm_num), hc2, and_field,
    Nat.add_comm (sw % 2 ^ 11),
    or_insert (sw / 2 ^ (11 + 3)) _ _ 11 3 (Nat.mod_lt _ (Nat.two_pow_pos 11)) (Nat.mod_lt _ (by norm_num))]

theorem swPop_arith (sw : Nat) (h : sw < 2 ^ 16) :
    (sw &&& (0xFFFF ^^^ kFpuSwSp)) ||| ((sw + 2048) &&& kFpuSwSp) =
      sw / 2 ^ 14 * 2 ^ 14 + (sw + 2048) / 2 ^ 11 % 2 ^ 3 * 2 ^ 11 + sw % 2 ^ 11 := by
  have hc : ((0xFFFF : Nat) ^^^ kFpuSwSp) = (2 ^ 16 - 1) ^^^ ((2 ^ 3 - 1) <<< 11) := by decide
  have hc2 : (kFpuSwSp : Nat) = (2 ^ 3 - 1) <<< 11 := by decide
  rw [hc, and_compl_field sw 11 3 h (by norm_num), hc2, and_field,
    Nat.add_comm (sw % 2 ^ 11),
    or_insert (sw / 2 ^ (11 + 3)) _ _ 11 3 (Nat.mod_lt _ (Nat.two_pow_pos 11)) (Nat.mod_lt _ (by norm_num))]

theorem swPush_lt (sw : Nat) (h : sw < 2 ^ 16) :
    (sw &&& (0xFFFF ^^^ kFpuSwSp)) ||| ((sw + 4294967296 - 2048) % 4294967296 &&& kFpuSwSp) < 2 ^ 16 := by
  rw [swPush_arith sw h]
  omega

theorem swPush_top (sw : Nat) (h : sw < 2 ^ 16) :
    fpuTop ((sw &&& (0xFFFF ^^^ kFpuSwSp)) ||| ((sw + 4294967296 - 2048) % 4294967296 &&& kFpuSwSp)) =
      (fpuTop sw + 7) % 8 := by
  rw [swPush_arith sw h, fpuTop_arith, fpuTop_arith]
  omega

theorem swRound (sw : Nat) (h : sw < 2 ^ 16) :
    (let sw2 := (sw &&& (0xFFFF ^^^ kFpuSwSp)) ||| ((sw + 4294967296 - 2048) % 4294967296 &&& kFpuSwSp)
     (sw2 &&& (0xFFFF ^^^ kFpuSwSp)) ||| ((sw2 + 2048) &&& kFpuSwSp)) = sw := by
  show ((((sw &&& (0xFFFF ^^^ kFpuSwSp)) ||| ((sw + 4294967296 - 2048) % 4294967296 &&& kFpuSwSp)) &&&
      (0xFFFF ^^^ kFpuSwSp)) |||
      ((((sw &&& (0xFFFF ^^^ kFpuSwSp)) ||| ((sw + 4294967296 - 2048) % 4294967296 &&& kFpuSwSp)) + 2048) &&& kFpuSwSp)) = sw
  rw [swPop_arith _ (swPush_lt sw h), swPush_arith sw h]
  omega

theorem swPop_top (sw : Nat) (h : sw < 2 ^ 16) :
    fpuTop ((sw &&& (0xFFFF ^^^ kFpuSwSp)) ||| ((sw + 2048) &&& kFpuSwSp)) = (fpuTop sw + 1) % 8 := by
  rw [swPop_arith sw h, fpuTop_arith, fpuTop_arith]
  omega



theorem FpuPush_eq (f : FPUState) (x : Nat) (he : FpuGetTag f (-1) = kFpuTagEmpty) :
    FpuPush f x =
      { f with
        sw := (f.sw &&& (0xFFFF ^^^ kFpuSwSp)) ||| ((f.sw + 4294967296 - 2048) % 4294967296 &&& kFpuSwSp),
        st := Function.update f.st
          (fpuStIdx ((f.sw &&& (0xFFFF ^^^ kFpuSwSp)) ||| ((f.sw + 4294967296 - 2048) % 4294967296 &&& kFpuSwSp)) 0) x,
        tw := tagSet f.tw
          (2 * (fpuStIdx ((f.sw &&& (0xFFFF ^^^ kFpuSwSp)) ||| ((f.sw + 4294967296 - 2048) % 4294967296 &&& kFpuSwSp)) 0).val)
          kFpuTagValid } := by
  simp [FpuPush, FpuSetTag, he]

theorem FpuPop_eq (g : FPUState) (hne : FpuGetTag g 0 ≠ kFpuTagEmpty) :
    FpuPop g =
      (g.st (fpuStIdx g.sw 0),
       { g with
         tw := tagSet g.tw (2 * (fpuStIdx g.sw 0).val) kFpuTagEmpty,
         sw := (g.sw &&& (0xFFFF ^^^ kFpuSwSp)) ||| ((g.sw + 2048) &&& kFpuSwSp) }) := by
  simp [FpuPop, FpuSetTag, hne]



/-- C8: FPU stack round trip.  With logical slot -1 empty, FpuPush x
followed by FpuPop returns x bit-identically and restores the status
word (hence the top-of-stack field, with no stack-fault or invalid bits
set) and the tag word and the control word; the push writes x into
physical slot (top-1) mod 8 with tag valid and top decremented mod 8,
and the pop re-marks the slot empty, increments top mod 8 and leaves
the stack registers as the push left them. -/
theorem c8_fpu_stack_cycle (f : FPUState) (x : Nat)
    (hsw : f.sw < 2 ^ 16) (htw : f.tw < 2 ^ 16)
    (hempty : FpuGetTag f (-1) = kFpuTagEmpty) :
    (FpuPop (FpuPush f x)).1 = x ∧
    (FpuPop (FpuPush f x)).2.sw = f.sw ∧
    (FpuPop (FpuPush f x)).2.tw = f.tw ∧
    (FpuPop (FpuPush f x)).2.cw = f.cw ∧
    (FpuPush f x).st ⟨(fpuTop f.sw + 7) % 8, Nat.mod_lt _ (by omega)⟩ = x ∧
    fpuTop (FpuPush f x).sw = (fpuTop f.sw + 7) % 8 ∧
    FpuGetTag (FpuPush f x) 0 = kFpuTagValid ∧
    fpuTop (FpuPop (FpuPush f x)).2.sw = (fpuTop (FpuPush f x).sw + 1) % 8 ∧
    FpuGetTag (FpuPop (FpuPush f x)).2 (-1) = kFpuTagEmpty ∧
    (FpuPop (FpuPush f x)).2.st = (FpuPush f x).st := by
  have hT : fpuTop f.sw < 8 := by rw [fpuTop_arith]; omega
  have hpush := FpuPush_eq f x hempty
  have hsw2lt := swPush_lt f.sw hsw
  have htop2 := swPush_top f.sw hsw
  have hidx2 : (fpuStIdx ((f.sw &&& (0xFFFF ^^^ kFpuSwSp)) |||
      ((f.sw + 4294967296 - 2048) % 4294967296 &&& kFpuSwSp)) 0).val =
      (fpuTop f.sw + 7) % 8 := by rw [stIdx_zero, htop2]
  have hjle : 2 * ((fpuTop f.sw + 7) % 8) + 2 ≤ 16 := by
    have : (fpuTop f.sw + 7) % 8 < 8 := Nat.mod_lt _ (by omega)
    omega
  have hget3 : tagGet f.tw (2 * ((fpuTop f.sw + 7) % 8)) = 3 := by
    have h := hempty
    unfold FpuGetTag at h
    rwa [stIdx_neg1] at h
  -- the tag check the pop performs on the pushed state
  have hP0 : FpuGetTag (FpuPush f x) 0 = 0 := by
    rw [hpush]
    unfold FpuGetTag
    simp only [hidx2]
    exact tag_get_set0 f.tw _ htw hjle
  have hne : FpuGetTag (FpuPush f x) 0 ≠ kFpuTagEmpty := by
    rw [hP0]; decide
  have hpop := FpuPop_eq (FpuPush f x) hne
  -- push-state projections
  have hPsw : (FpuPush f x).sw = (f.sw &&& (0xFFFF ^^^ kFpuSwSp)) |||
      ((f.sw + 4294967296 - 2048) % 4294967296 &&& kFpuSwSp) := by rw [hpush]
  have hPtw : (FpuPush f x).tw = tagSet f.tw (2 * ((fpuTop f.sw + 7) % 8)) kFpuTagValid := by
    rw [hpush]; simp only [hidx2]
  have hPcw : (FpuPush f x).cw = f.cw := by rw [hpush]
  have hPst : (FpuPush f x).st = Function.update f.st
      (fpuStIdx ((f.sw &&& (0xFFFF ^^^ kFpuSwSp)) |||
        ((f.sw + 4294967296 - 2048) % 4294967296 &&& kFpuSwSp)) 0) x := by rw [hpush]
  -- pop-state projections
  have hQsw : (FpuPop (FpuPush f x)).2.sw = f.sw := by
    rw [hpop]
    show ((FpuPush f x).sw &&& (0xFFFF ^^^ kFpuSwSp)) ||| (((FpuPush f x).sw + 2048) &&& kFpuSwSp) = f.sw
    rw [hPsw]
    exact swRound f.sw hsw
  have hQtw : (FpuPop (FpuPush f x)).2.tw = f.tw := by
    rw [hpop]
    show tagSet (FpuPush f x).tw (2 * (fpuStIdx (FpuPush f x).sw 0).val) kFpuTagEmpty = f.tw
    rw [hPsw, hidx2, hPtw]
    exact tag_set_set f.tw _ htw hjle hget3
  have hQst : (FpuPop (FpuPush f x)).2.st = (FpuPush f x).st := by rw [hpop]
  refine ⟨?_, hQsw, hQtw, ?_, ?_, ?_, ?_, ?_, ?_, hQst⟩
  · rw [hpop]
    show (FpuPush f x).st (fpuStIdx (FpuPush f x).sw 0) = x
    rw [hPst]
    have hfix : fpuStIdx (FpuPush f x).sw 0 = fpuStIdx ((f.sw &&& (0xFFFF ^^^ kFpuSwSp)) |||
        ((f.sw + 4294967296 - 2048) % 4294967296 &&& kFpuSwSp)) 0 := by rw [hPsw]
    rw [hfix, Function.update_same]
  · rw [hpop]; exact hPcw
  · rw [hPst]
    have hfix : (⟨(fpuTop f.sw + 7) % 8, Nat.mod_lt _ (by omega)⟩ : Fin 8) =
        fpuStIdx ((f.sw &&& (0xFFFF ^^^ kFpuSwSp)) |||
          ((f.sw + 4294967296 - 2048) % 4294967296 &&& kFpuSwSp)) 0 := by
      apply Fin.ext
      simp only [hidx2]
    rw [hfix, Function.update_same]
  · rw [hPsw]; exact htop2
  · rw [hP0]; rfl
  · rw [hQsw, hPsw, htop2]
    have : fpuTop f.sw = (((fpuTop f.sw + 7) % 8) + 1) % 8 := by omega
    exact this
  · unfold FpuGetTag
    rw [hQsw, hQtw, stIdx_neg1]
    exact hget3
  


/-- Witness for C8 on the freshly initialized FPU state with
x = 0x3FF0000000000000 (the double 1.0). -/
theorem c8_fpu_stack_cycle_witness :
    fpu0.sw < 2 ^ 16 ∧ fpu0.tw < 2 ^ 16 ∧ FpuGetTag fpu0 (-1) = kFpuTagEmpty ∧
    (FpuPop (FpuPush fpu0 4607182418800017408)).1 = 4607182418800017408 ∧
    (FpuPop (FpuPush fpu0 4607182418800017408)).2.sw = fpu0.sw ∧
    (FpuPop (FpuPush fpu0 4607182418800017408)).2.tw = fpu0.tw :=
  ⟨by decide, by decide, by decide,
   (c8_fpu_stack_cycle fpu0 4607182418800017408 (by decide) (by decide) (by decide)).1,
   (c8_fpu_stack_cycle fpu0 4607182418800017408 (by decide) (by decide) (by decide)).2.1,
   (c8_fpu_stack_cycle fpu0 4607182418800017408 (by decide) (by decide) (by decide)).2.2.1⟩



/-- C2: semantics of MOVSB (opcode 0xA4) in real mode.  When a
repetition latch is active and CX is zero the instruction is a no-op;
otherwise exactly one byte moves from `useseg:SI` to `ES:DI`, SI and DI
each step by +1 when DF = 0 and by -1 when DF = 1 (mod 2^16), CX is
decremented exactly when a repetition latch is active, and with an
active latch IP is rewound to the first byte of the instruction so it
re-enters the fetch loop. -/
theorem c2_movsb_step_semantics (cb : Nat → CPU → CPU) (fuel : Nat) (c : CPU) (firstip : Nat)
    (hprot : c.protected_mode = 0) :
    ((c.reptype ≠ 0 ∧ c.regs regcx = 0) → movsb_step cb fuel c firstip = c) ∧
    (¬ (c.reptype ≠ 0 ∧ c.regs regcx = 0) →
      movsb_step cb fuel c firstip =
        { c with
          mem := bus_write c.mem (realAddr c.a20 (c.segregs reges) (c.regs regdi))
                   (bus_read c.mem (realAddr c.a20 c.useseg (c.regs regsi))),
          regs := Function.update (Function.update (Function.update c.regs regsi
                    (if c.df ≠ 0 then (c.regs regsi + 65535) % 65536 else (c.regs regsi + 1) % 65536))
                    regdi (if c.df ≠ 0 then (c.regs regdi + 65535) % 65536 else (c.regs regdi + 1) % 65536))
                    regcx (if c.reptype ≠ 0 then (c.regs regcx + 65535) % 65536 else c.regs regcx),
          ip := if c.reptype ≠ 0 then firstip else c.ip }) := by
  constructor
  · intro h
    simp [movsb_step, h]
  · intro h
    have hne1 : (regcx : Fin 8) ≠ regdi := by decide
    have hne2 : (regcx : Fin 8) ≠ regsi := by decide
    by_cases hrep : c.reptype = 0
    · by_cases hdf : c.df = 0
      · simp [movsb_step, hrep, hdf, getmem8, putmem8, getmem8_core_real, putmem8_core_real,
          hprot, Function.update_noteq hne1, Function.update_noteq hne2, Function.update_eq_self]
      · simp [movsb_step, hrep, hdf, getmem8, putmem8, getmem8_core_real, putmem8_core_real,
          hprot, Function.update_noteq hne1, Function.update_noteq hne2, Function.update_eq_self]
    · have hcx : c.regs regcx ≠ 0 := fun hc => h ⟨hrep, hc⟩
      by_cases hdf : c.df = 0
      · simp [movsb_step, hrep, hcx, hdf, getmem8, putmem8, getmem8_core_real, putmem8_core_real,
          hprot, Function.update_noteq hne1, Function.update_noteq hne2, Function.update_eq_self]
      · simp [movsb_step, hrep, hcx, hdf, getmem8, putmem8, getmem8_core_real, putmem8_core_real,
          hprot, Function.update_noteq hne1, Function.update_noteq hne2, Function.update_eq_self]

/-- C10: the INT 15h intercept.  With no fault latched and in real mode,
dispatching vector 0x15 with AH=0x88 returns immediately with AX=15360
and CF=0; with AH=0x87 it copies CX*2 bytes between the 24-bit bases
read from the descriptor table at ES:SI and returns with AH=0, CF=0 and
ZF=1.  In both cases the returned state shows no flags/CS/IP pushed and
no vector-table read: the result is built from the incoming state
alone. -/
theorem c10_int15_intercept (cb : Nat → CPU → CPU) (fuel : Nat) (c : CPU)
    (hflt : c.handling_fault = 0) (hprot : c.protected_mode = 0) :
    (byteregGet c regah = 0x88 →
      cpu_intcall cb (fuel + 1) c 0x15 =
        { c with regs := Function.update c.regs regax 15360, cf := 0 }) ∧
    (byteregGet c regah = 0x87 →
      cpu_intcall cb (fuel + 1) c 0x15 =
        (let ta := realAddr c.a20 (c.segregs reges) (c.regs regsi)
         let src := bus_read c.mem (ta + 10) ||| (bus_read c.mem (ta + 11) <<< 8) ||| (bus_read c.mem (ta + 12) <<< 16)
         let dst := bus_read c.mem (ta + 18) ||| (bus_read c.mem (ta + 19) <<< 8) ||| (bus_read c.mem (ta + 20) <<< 16)
         { byteregSet { int15_block_move c src dst (c.regs regcx * 2) with cf := 0 } regah 0 with zf := 1 })) := by
  constructor
  · intro hah
    simp [cpu_intcall, intcallBody, hflt, hah]
  · intro hah
    simp [cpu_intcall, intcallBody, hflt, hprot, hah, get_real_address_core_real,
      cpu_read]

theorem pfxScan_step (cb : Nat → CPU → CPU) (fuel : Nat) (c : CPU) (count l : Nat)
    (hprot : c.protected_mode = 0) (ha20 : c.a20 = true)
    (hcs : c.segregs regcs < 65536) (hip : c.ip < 65536)
    (hcount : count + 1 ≤ 10) :
    pfxScan cb fuel c count (l + 1) =
      (let b := bus_read c.mem (c.segregs regcs * 16 + c.ip)
       let c3 := { c with savecs := c.segregs regcs, saveip := c.ip, opcode := b, ip := (c.ip + 1) % 65536 }
       if b = 0x2E then pfxScan cb fuel { c3 with useseg := c3.segregs regcs, segoverride := 1 } (count + 1) l
       else if b = 0x3E then pfxScan cb fuel { c3 with useseg := c3.segregs regds, segoverride := 1 } (count + 1) l
       else if b = 0x26 then pfxScan cb fuel { c3 with useseg := c3.segregs reges, segoverride := 1 } (count + 1) l
       else if b = 0x36 then pfxScan cb fuel { c3 with useseg := c3.segregs regss, segoverride := 1 } (count + 1) l
       else if b = 0xF0 then pfxScan cb fuel c3 (count + 1) l
       else if b = 0xF3 then pfxScan cb fuel { c3 with reptype := 1 } (count + 1) l
       else if b = 0xF2 then pfxScan cb fuel { c3 with reptype := 2 } (count + 1) l
       else (c3, false)) := by
  have hmcs : c.segregs regcs &&& 0xFFFF = c.segregs regcs := by
    rw [Nat.and_pow_two_sub_one_eq_mod (c.segregs regcs) 16]; omega
  have hmip : c.ip &&& 0xFFFF = c.ip := by
    rw [Nat.and_pow_two_sub_one_eq_mod c.ip 16]; omega
  have hcnt : ¬ (count + 1 > 10) := by omega
  simp only [pfxScan, hmcs, hmip, Function.update_eq_self, hcnt, if_false,
    getmem8, getmem8_core_real, hprot, realAddr, ha20, if_true, ite_true,
    Nat.shiftLeft_eq]

theorem pfxScan_over (cb : Nat → CPU → CPU) (fuel : Nat) (c : CPU) (count l : Nat)
    (h : count + 1 > 10) :
    (pfxScan cb fuel c count (l + 1)).2 = true := by
  simp only [pfxScan, h, ite_true, if_pos]

theorem pfx_run (cb : Nat → CPU → CPU) (fuel : Nat) :
    ∀ (n : Nat) (c : CPU) (count cs ip0 : Nat),
    c.segregs regcs = cs → c.ip = ip0 →
    c.protected_mode = 0 → c.a20 = true → cs < 65536 → ip0 + n + 1 < 65536 →
    count + n ≤ 9 →
    (∀ i < n, isPfxByte (bus_read c.mem (cs * 16 + (ip0 + i)))) →
    ¬ isPfxByte (bus_read c.mem (cs * 16 + (ip0 + n))) →
    (pfxScan cb fuel c count (11 - count)).2 = false ∧
    (pfxScan cb fuel c count (11 - count)).1.opcode = bus_read c.mem (cs * 16 + (ip0 + n)) ∧
    (pfxScan cb fuel c count (11 - count)).1.ip = ip0 + n + 1 ∧
    (pfxScan cb fuel c count (11 - count)).1.mem = c.mem := by
  intro n
  induction n with
  | zero =>
    intro c count cs ip0 hcs0 hip0 hprot ha20 hcs hip hcount hpfx hnp
    obtain ⟨l, hl⟩ : ∃ l, 11 - count = l + 1 := ⟨10 - count, by omega⟩
    rw [hl, pfxScan_step cb fuel c count l hprot ha20 (by omega) (by omega) (by omega)]
    rw [hcs0, hip0]
    simp only [isPfxByte, not_or, Nat.add_zero] at hnp
    obtain ⟨h1, h2, h3, h4, h5, h6, h7⟩ := hnp
    simp only [Nat.add_zero, if_neg h1, if_neg h2, if_neg h3, if_neg h4, if_neg h5, if_neg h6, if_neg h7]
    refine ⟨?_, ?_, ?_, ?_⟩ <;> first | rfl | trivial | omega
  | succ n ih =>
    intro c count cs ip0 hcs0 hip0 hprot ha20 hcs hip hcount hpfx hnp
    obtain ⟨l, hl⟩ : ∃ l, 11 - count = l + 1 := ⟨10 - count, by omega⟩
    rw [hl, pfxScan_step cb fuel c count l hprot ha20 (by omega) (by omega) (by omega)]
    rw [hcs0, hip0]
    have hip1 : (ip0 + 1) % 65536 = ip0 + 1 := by omega
    have hl2 : l = 11 - (count + 1) := by omega
    have hp0 := hpfx 0 (by omega)
    simp only [Nat.add_zero] at hp0
    have hpfx' : ∀ i < n, isPfxByte (bus_read c.mem (cs * 16 + (ip0 + 1 + i))) := by
      intro i hi
      have hx := hpfx (i + 1) (by omega)
      have harith : ip0 + (i + 1) = ip0 + 1 + i := by omega
      rwa [harith] at hx
    have hnp' : ¬ isPfxByte (bus_read c.mem (cs * 16 + (ip0 + 1 + n))) := by
      have harith : ip0 + (n + 1) = ip0 + 1 + n := by omega
      rwa [harith] at hnp
    rcases hp0 with h | h | h | h | h | h | h
    all_goals simp only [h, hip1, hl2, reduceIte]
    all_goals (
      rw [show cs * 16 + (ip0 + (n + 1)) = cs * 16 + (ip0 + 1 + n) from by omega,
          show ip0 + (n + 1) + 1 = ip0 + 1 + n + 1 from by omega]
      exact ih _ (count + 1) cs (ip0 + 1) hcs0 rfl hprot ha20 hcs (by omega) (by omega) hpfx' hnp')

theorem pfx_fault (cb : Nat → CPU → CPU) (fuel : Nat) :
    ∀ (n : Nat) (c : CPU) (count cs ip0 : Nat),
    c.segregs regcs = cs → c.ip = ip0 →
    c.protected_mode = 0 → c.a20 = true → cs < 65536 → ip0 + n + 1 < 65536 →
    count + n = 10 →
    (∀ i < n, isPfxByte (bus_read c.mem (cs * 16 + (ip0 + i)))) →
    (pfxScan cb fuel c count (11 - count)).2 = true := by
  intro n
  induction n with
  | zero =>
    intro c count cs ip0 hcs0 hip0 hprot ha20 hcs hip hcount hpfx
    obtain ⟨l, hl⟩ : ∃ l, 11 - count = l + 1 := ⟨0, by omega⟩
    rw [hl]
    exact pfxScan_over cb fuel c count l (by omega)
  | succ n ih =>
    intro c count cs ip0 hcs0 hip0 hprot ha20 hcs hip hcount hpfx
    obtain ⟨l, hl⟩ : ∃ l, 11 - count = l + 1 := ⟨10 - count, by omega⟩
    rw [hl, pfxScan_step cb fuel c count l hprot ha20 (by omega) (by omega) (by omega)]
    rw [hcs0, hip0]
    have hip1 : (ip0 + 1) % 65536 = ip0 + 1 := by omega
    have hl2 : l = 11 - (count + 1) := by omega
    have hp0 := hpfx 0 (by omega)
    simp only [Nat.add_zero] at hp0
    have hpfx' : ∀ i < n, isPfxByte (bus_read c.mem (cs * 16 + (ip0 + 1 + i))) := by
      intro i hi
      have hx := hpfx (i + 1) (by omega)
      have harith : ip0 + (i + 1) = ip0 + 1 + i := by omega
      rwa [harith] at hx
    rcases hp0 with h | h | h | h | h | h | h
    all_goals simp only [h, hip1, hl2, reduceIte]
    all_goals exact ih _ (count + 1) cs (ip0 + 1) hcs0 rfl hprot ha20 hcs (by omega) (by omega) hpfx'



/-- C7 amended: the prefix-collection loop of `cpu_exec` decodes an
instruction normally when at most NINE prefix bytes precede it (the
non-prefix byte lands in `opcode`, IP ends just past it, memory is
untouched, no interrupt), and raises interrupt 13 when ten prefix bytes
precede it — not eleven, because the byte counter also counts the
terminating opcode byte, so ten prefixes plus the opcode already exceed
the limit of ten fetched bytes. -/
theorem c7_pfx_limit (cb : Nat → CPU → CPU) (fuel : Nat) (c : CPU) (k : Nat)
    (hprot : c.protected_mode = 0) (ha20 : c.a20 = true)
    (hcs : c.segregs regcs < 65536) (hip : c.ip + k + 1 < 65536)
    (hpfx : ∀ i < k, isPfxByte (bus_read c.mem (c.segregs regcs * 16 + (c.ip + i)))) :
    (k ≤ 9 → ¬ isPfxByte (bus_read c.mem (c.segregs regcs * 16 + (c.ip + k))) →
      (pfxCollect cb fuel c).2 = false ∧
      (pfxCollect cb fuel c).1.opcode = bus_read c.mem (c.segregs regcs * 16 + (c.ip + k)) ∧
      (pfxCollect cb fuel c).1.ip = c.ip + k + 1 ∧
      (pfxCollect cb fuel c).1.mem = c.mem) ∧
    (k = 10 → (pfxCollect cb fuel c).2 = true) := by
  constructor
  · intro hk hnp
    exact pfx_run cb fuel k c 0 (c.segregs regcs) c.ip rfl rfl hprot ha20 hcs (by omega)
      (by omega) hpfx hnp
  · intro hk
    subst hk
    exact pfx_fault cb fuel 10 c 0 (c.segregs regcs) c.ip rfl rfl hprot ha20 hcs (by omega)
      (by omega) hpfx

/-- C7 counterexample: ten 0x26 segment-override bytes followed by a NOP
raise interrupt 13, refuting the claim that an instruction preceded by
at most ten prefix bytes is decoded and executed normally. -/
theorem c7_pfx_counterexample : (pfxCollect cbNone 1 c7cpu).2 = true := by decide

/-- Witness for C7 amended on `c7okCpu`: two 0x26 overrides then NOP
decode normally with opcode 0x90 and IP 3. -/
theorem c7_pfx_limit_witness :
    (pfxCollect cbNone 1 c7okCpu).2 = false ∧
    (pfxCollect cbNone 1 c7okCpu).1.opcode = 0x90 ∧
    (pfxCollect cbNone 1 c7okCpu).1.ip = 3 ∧
    (pfxCollect cbNone 1 c7okCpu).1.mem = c7okCpu.mem := by
  have h := (c7_pfx_limit cbNone 1 c7okCpu 2 (by decide) (by decide) (by decide) (by decide)
      (by decide)).1 (by decide) (by decide)
  exact ⟨h.1, h.2.1.trans (by decide), h.2.2.1.trans (by decide), h.2.2.2⟩

/-- Witness for C2: REP MOVSB on `c2cpu` (CX=5, DF=0, source byte 0x77
at 0010:0004, destination 0020:0008, instruction start 0x30). -/
theorem c2_movsb_step_semantics_witness :
    (movsb_step cbNone 1 c2cpu 0x30).regs regcx = 4 ∧
    (movsb_step cbNone 1 c2cpu 0x30).regs regsi = 5 ∧
    (movsb_step cbNone 1 c2cpu 0x30).regs regdi = 9 ∧
    (movsb_step cbNone 1 c2cpu 0x30).ip = 0x30 ∧
    (movsb_step cbNone 1 c2cpu 0x30).mem 0x208 = 0x77 := by
  have h := (c2_movsb_step_semantics cbNone 1 c2cpu 0x30 (by decide)).2 (by decide)
  rw [h]
  decide

/-- Witness for C10 at both concrete states: AH=0x88 on `c10aCpu`, and
AH=0x87 on `c10bCpu` (CX=2 words, source base 0x200, destination base
0x300, bytes 5A..5D). -/
theorem c10_int15_intercept_witness :
    ((cpu_intcall cbNone 1 c10aCpu 0x15).regs regax = 15360 ∧
     (cpu_intcall cbNone 1 c10aCpu 0x15).cf = 0) ∧
    (byteregGet (cpu_intcall cbNone 1 c10bCpu 0x15) regah = 0 ∧
     (cpu_intcall cbNone 1 c10bCpu 0x15).cf = 0 ∧
     (cpu_intcall cbNone 1 c10bCpu 0x15).zf = 1 ∧
     (cpu_intcall cbNone 1 c10bCpu 0x15).mem 0x300 = 0x5A ∧
     (cpu_intcall cbNone 1 c10bCpu 0x15).mem 0x303 = 0x5D) := by
  constructor
  · have h := (c10_int15_intercept cbNone 0 c10aCpu (by decide) (by decide)).1 (by decide)
    rw [h]
    decide
  · have h := (c10_int15_intercept cbNone 0 c10bCpu (by decide) (by decide)).2 (by decide)
    rw [h]
    decide

end XT
